import Mathlib

/-!
Shallow embedding of the BotFenix trading bot core (src/config.py,
src/sniper_flow_bot/core/portfolio.py, src/sniper_flow_bot/core/models.py,
src/strategy/scalper_logic.py, src/analysis/market_stats.py,
src/sniper_flow_bot/analysis/book_imbalance.py).

Python floats are embedded as `ℚ` (exact rational arithmetic), Python ints as
`ℕ`/`ℤ`, Python dicts as association lists `List (String × α)` with the
lookup/insert/delete operations below, Python `None`-able values as `Option`.
Log calls are observability only and are dropped; formatted number text inside
reason strings is elided (the label part of each reason string is kept).
-/

namespace Bot

/-! ## Dictionaries (Python `dict` as an association list) -/

/-- `d.get(k)` / `d[k]`: the value of the first binding of `k`. -/
def dlookup {α : Type} : List (String × α) → String → Option α
  | [], _ => none
  | (k', v) :: t, k => if k' = k then some v else dlookup t k

/-- `d[k] = v`: replace the binding of `k` in place, or append it. -/
def dinsert {α : Type} (k : String) (v : α) : List (String × α) → List (String × α)
  | [] => [(k, v)]
  | (k', v') :: t => if k' = k then (k, v) :: t else (k', v') :: dinsert k v t

/-- `del d[k]`: drop the first binding of `k`. -/
def derase {α : Type} (k : String) : List (String × α) → List (String × α)
  | [] => []
  | (k', v') :: t => if k' = k then t else (k', v') :: derase k t

/-- The keys of the association list are pairwise distinct (true of every
Python dict, and preserved by `dinsert`/`derase`). -/
def keysNodup {α : Type} (l : List (String × α)) : Prop := (l.map Prod.fst).Nodup

/-! ## Configuration constants (src/config.py) -/

def INITIAL_BALANCE : ℚ := 50
def LEVERAGE : ℚ := 20
def BASE_RISK_PER_TRADE : ℚ := 3/100
def HIGH_CONV_RISK_MULT : ℚ := 16/10
def MAX_TOTAL_RISK_PCT_OPEN : ℚ := 1/10
def DAILY_MAX_LOSS_PCT : ℚ := 6/100
def DAILY_MAX_LOSS_ABS : ℚ := 3
def MAX_TRADES_PER_DAY : ℕ := 35
def MAX_TRADES_PER_HOUR_PER_SYMBOL : ℕ := 10
def COOLDOWN_AFTER_TRADE_SEC : ℚ := 5
def MIN_RR_VS_FEES : ℚ := 3
def REWARD_RISK_BASE : ℚ := 5/2
def SL_BUFFER_PCT : ℚ := 8/10000
def FEE_MAKER : ℚ := 2/10000
def FEE_TAKER : ℚ := 4/10000

/-- `TICK_SIZE` dict of src/config.py. -/
def TICK_SIZE : List (String × ℚ) :=
  [("btcusdt", 1/10), ("ethusdt", 1/100), ("solusdt", 1/100)]

def SCORE_MIN_FOR_CANDIDATE : ℚ := 45
def SCORE_SNIPER_MIN : ℚ := 90
def SCORE_WEIGHT_CVD : ℚ := 35
def SCORE_WEIGHT_IMBALANCE : ℚ := 45
def SCORE_WEIGHT_VOLUME : ℚ := 15
def IMBALANCE_SCORE_BASE : ℚ := 26
def IMBALANCE_SCORE_MAX : ℚ := 40
def CVD_SLOPE_THRESHOLD : ℚ := 10
def MIN_VOL_NORM : ℚ := 3/10
def BONUS_VOL_NORM : ℚ := 7/10
def IMBALANCE_LONG_ENTRY : ℚ := 4/10
def IMBALANCE_SHORT_ENTRY : ℚ := -(4/10)
def CVD_SLOPE_STRONG_UP : ℚ := 100
def CVD_SLOPE_WEAK_UP : ℚ := 30
def CVD_SLOPE_STRONG_DOWN : ℚ := -100
def CVD_SLOPE_WEAK_DOWN : ℚ := -30
def VOLATILITY_MIN : ℚ := 4/100000
def VOLATILITY_MAX : ℚ := 250/100000
def ANTI_CHASE_ENABLE : Bool := true
def ANTI_CHASE_LOOKBACK_TICKS : ℕ := 5
def ANTI_CHASE_MAX_MOVE_PCT : ℚ := 20/10000

def INVALID_IMB_ENABLE : Bool := true
def INVALID_IMB_THRESHOLD : ℚ := 95/100
def INVALID_IMB_CONSEC_SAMPLES : ℕ := 4
def INVALID_IMB_MIN_AGE_SEC : ℚ := 5
def INVALID_IMB_MIN_ADVERSE_TICKS : ℕ := 3
def NO_PROGRESS_EXIT_ENABLE : Bool := false
def NO_PROGRESS_MIN_AGE_SEC : ℚ := 15
def NO_PROGRESS_MIN_MFE_PCT : ℚ := 5/10000
def NO_PROGRESS_GIVEBACK_PCT : ℚ := 25/100000
def MAX_TRADE_LIFETIME_LOW_VOL_SEC : ℚ := 600
def MAX_TRADE_LIFETIME_HIGH_VOL_SEC : ℚ := 300
def VOL_NORM_HIGH_THRESHOLD : ℚ := 7/10
def BREAKEVEN_TRIGGER_PCT : ℚ := 25/10000
def TRAILING_STOP_PCT : ℚ := 10/10000
def PARTIAL_TP_FRACTION : ℚ := 1/2
def PARTIAL_TP_TRIGGER_PCT : ℚ := 25/10000

/-! ## Data model (src/sniper_flow_bot/core/models.py)

The `Optional` MFE/MAE price fields of the Python `Position` dataclass are
embedded as plain `ℚ`: `open_position` always initialises them to the entry
price before the position is ever managed, and `_update_trade_management`
reads them with that same default. -/

structure Signal where
  symbol : String
  side : String
  score : ℚ
  reason : String
  risk_mult : ℚ := 1
  score_class : String := ""
  deriving DecidableEq, Repr

structure Position where
  symbol : String
  side : String
  entry_price : ℚ
  qty : ℚ
  initial_qty : ℚ
  sl_price : ℚ
  tp_price : ℚ
  entry_ts : ℚ
  entry_imbalance : ℚ
  risk_pct : ℚ
  breakeven_done : Bool := false
  partial_taken : Bool := false
  max_favorable_price : ℚ
  min_favorable_price : ℚ
  min_adverse_price : ℚ
  max_adverse_price : ℚ
  open_reason : String := ""
  entry_fee_total : ℚ := 0
  estimated_fees : ℚ := 0
  type_label : String := "STANDARD"
  invalid_imb_count : ℕ := 0
  adverse_ticks : ℕ := 0
  deriving DecidableEq, Repr

structure TradeRecord where
  symbol : String
  side : String
  entry_price : ℚ
  exit_price : ℚ
  qty : ℚ
  sl_price : ℚ
  tp_price : ℚ
  entry_ts : ℚ
  exit_ts : ℚ
  realized_pnl : ℚ
  fees_paid : ℚ
  reason : String
  deriving DecidableEq, Repr

/-! ## GlobalPortfolio state (src/sniper_flow_bot/core/portfolio.py) -/

structure GlobalPortfolio where
  balance : ℚ
  equity : ℚ
  fee_maker : ℚ
  fee_taker : ℚ
  positions : List (String × Position)
  trade_history : List TradeRecord
  current_day : Option ℕ
  start_of_day_balance : ℚ
  trades_today : ℕ
  last_exit_ts : List (String × ℚ)
  trades_last_hour : List (String × List ℚ)
  deriving DecidableEq, Repr

/-- `GlobalPortfolio.__init__`. -/
def initPortfolio : GlobalPortfolio :=
  { balance := INITIAL_BALANCE
    equity := INITIAL_BALANCE
    fee_maker := FEE_MAKER
    fee_taker := FEE_TAKER
    positions := []
    trade_history := []
    current_day := none
    start_of_day_balance := INITIAL_BALANCE
    trades_today := 0
    last_exit_ts := []
    trades_last_hour := [] }

/-! ## Day-of-year clock

`time.gmtime(ts).tm_yday`: the 1-based day of the (UTC) year of a Unix
timestamp `ts ≥ 0`.  The year loop is written with a fuel argument (the day
count itself, ample since every year consumes at least 365 days) so that the
definition is structurally recursive. -/

def isLeap (y : ℕ) : Bool := (y % 4 == 0 && y % 100 != 0) || (y % 400 == 0)

def ydayAux : ℕ → ℕ → ℕ → ℕ
  | 0, _, d => d + 1
  | fuel + 1, year, d =>
    let len := if isLeap year then 366 else 365
    if d < len then d + 1 else ydayAux fuel (year + 1) (d - len)

def tm_yday (ts : ℚ) : ℕ :=
  let d := Int.toNat ⌊ts / 86400⌋
  ydayAux d 1970 d

namespace GlobalPortfolio

/-- `GlobalPortfolio._reset_if_new_day`. -/
def resetIfNewDay (p : GlobalPortfolio) (ts : ℚ) : GlobalPortfolio :=
  let day := tm_yday ts
  if p.current_day = some day then p
  else { p with current_day := some day
                start_of_day_balance := p.balance
                trades_today := 0 }

/-- `GlobalPortfolio._daily_drawdown_pct`. -/
def dailyDrawdownPct (p : GlobalPortfolio) : ℚ :=
  if p.start_of_day_balance ≤ 0 then 0
  else (p.balance - p.start_of_day_balance) / p.start_of_day_balance

/-- `GlobalPortfolio._daily_drawdown_abs`. -/
def dailyDrawdownAbs (p : GlobalPortfolio) : ℚ :=
  p.balance - p.start_of_day_balance

/-- `GlobalPortfolio._total_risk_pct_open`. -/
def totalRiskPctOpen (p : GlobalPortfolio) : ℚ :=
  (p.positions.map (fun kv => kv.2.risk_pct)).sum

/-- `GlobalPortfolio._max_new_risk_pct_allowed`. -/
def maxNewRiskPctAllowed (p : GlobalPortfolio) : ℚ :=
  max 0 (MAX_TOTAL_RISK_PCT_OPEN - p.totalRiskPctOpen)

/-- `GlobalPortfolio._calc_qty_from_risk`. -/
def calcQtyFromRisk (p : GlobalPortfolio) (entry_price sl_price risk_pct : ℚ) :
    Option ℚ :=
  let sl_dist := |entry_price - sl_price|
  if sl_dist ≤ 0 then none
  else
    let risk_amount := p.balance * risk_pct
    let qty := risk_amount / sl_dist
    let notional := entry_price * qty
    let margin_required := notional / LEVERAGE
    if margin_required > p.balance then
      some (qty * (p.balance * LEVERAGE * (9/10) / notional))
    else some qty

/-- `GlobalPortfolio._can_open_trade` (returns the state updated by the day
reset it performs, together with the decision). -/
def canOpenTrade (p : GlobalPortfolio) (ts : ℚ) (risk_pct : ℚ) :
    GlobalPortfolio × Bool :=
  let p := p.resetIfNewDay ts
  if p.dailyDrawdownPct ≤ -DAILY_MAX_LOSS_PCT then (p, false)
  else if p.dailyDrawdownAbs ≤ -DAILY_MAX_LOSS_ABS then (p, false)
  else if MAX_TRADES_PER_DAY ≤ p.trades_today then (p, false)
  else if p.maxNewRiskPctAllowed + 1/1000000000 < risk_pct then (p, false)
  else (p, true)

/-- The sizing-and-booking tail of `GlobalPortfolio.open_position` (runs
after every frequency/risk guard has passed, on the state those guards left):
stop placement, quantity sizing, target, fee-ratio validation, and on success
the entry-fee deduction and the recording of the position. -/
def openPositionSized (p : GlobalPortfolio) (symbol : String) (ts price : ℚ)
    (signal : Signal) (recent_extreme_price entry_imbalance : ℚ) (side : String)
    (risk_pct : ℚ) : GlobalPortfolio × Option Position :=
  let sl_price :=
    if side = "LONG" then recent_extreme_price * (1 - SL_BUFFER_PCT)
    else recent_extreme_price * (1 + SL_BUFFER_PCT)
  match p.calcQtyFromRisk price sl_price risk_pct with
  | none => (p, none)
  | some qty =>
    if qty ≤ 0 then (p, none)
    else
      let tp_price :=
        if side = "LONG" then price + (price - sl_price) * REWARD_RISK_BASE
        else price - (sl_price - price) * REWARD_RISK_BASE
      let estimated_fees :=
        price * qty * p.fee_maker + tp_price * qty * p.fee_taker
      let tp_profit_gross := |tp_price - price| * qty
      if tp_profit_gross < estimated_fees * MIN_RR_VS_FEES then (p, none)
      else
        let entry_fee := price * qty * p.fee_maker
        let pos : Position :=
          { symbol := symbol
            side := side
            entry_price := price
            qty := qty
            initial_qty := qty
            sl_price := sl_price
            tp_price := tp_price
            entry_ts := ts
            entry_imbalance := entry_imbalance
            risk_pct := risk_pct
            max_favorable_price := price
            min_favorable_price := price
            min_adverse_price := price
            max_adverse_price := price
            open_reason := signal.reason
            estimated_fees := estimated_fees
            type_label :=
              if signal.score_class = "" then "STANDARD" else signal.score_class
            entry_fee_total := entry_fee }
        let p := { p with
          balance := p.balance - entry_fee
          positions := dinsert symbol pos p.positions }
        (p, some pos)

/-- `GlobalPortfolio.open_position`.  Every early `return None` returns the
state as mutated so far (the pruned hourly list, the day reset). -/
def openPosition (p : GlobalPortfolio) (symbol : String) (ts price : ℚ)
    (signal : Signal) (recent_extreme_price entry_imbalance : ℚ)
    (side : String) : GlobalPortfolio × Option Position :=
  if (dlookup p.positions symbol).isSome then (p, none)
  else
    if ts - (dlookup p.last_exit_ts symbol).getD 0 < COOLDOWN_AFTER_TRADE_SEC then
      (p, none)
    else
      let trades_hour :=
        ((dlookup p.trades_last_hour symbol).getD []).filter
          (fun t => ts - t < 3600)
      let p := { p with trades_last_hour := dinsert symbol trades_hour p.trades_last_hour }
      if MAX_TRADES_PER_HOUR_PER_SYMBOL ≤ trades_hour.length then (p, none)
      else
        if p.maxNewRiskPctAllowed ≤ 0 then (p, none)
        else
          let risk_pct :=
            if p.maxNewRiskPctAllowed < BASE_RISK_PER_TRADE * signal.risk_mult then
              p.maxNewRiskPctAllowed
            else BASE_RISK_PER_TRADE * signal.risk_mult
          let res := p.canOpenTrade ts risk_pct
          if res.2 = false then (res.1, none)
          else
            openPositionSized res.1 symbol ts price signal recent_extreme_price
              entry_imbalance side risk_pct

/-- `GlobalPortfolio._update_trade_management` (pure: the mutated position is
returned). -/
def updateTradeManagement (pos : Position) (price : ℚ) : Position :=
  let move := if pos.side = "LONG" then price - pos.entry_price
              else pos.entry_price - price
  let pos :=
    if pos.side = "LONG" then
      { pos with max_favorable_price := max pos.max_favorable_price price
                 min_adverse_price := min pos.min_adverse_price price }
    else
      { pos with min_favorable_price := min pos.min_favorable_price price
                 max_adverse_price := max pos.max_adverse_price price }
  let pos :=
    if pos.breakeven_done = false then
      let trigger_abs := pos.entry_price * BREAKEVEN_TRIGGER_PCT
      if trigger_abs ≤ move then
        { pos with sl_price := pos.entry_price, breakeven_done := true }
      else pos
    else pos
  if pos.breakeven_done = true then
    if pos.side = "LONG" then
      let trail_sl := price * (1 - TRAILING_STOP_PCT)
      if pos.sl_price < trail_sl then { pos with sl_price := trail_sl } else pos
    else
      let trail_sl := price * (1 + TRAILING_STOP_PCT)
      if trail_sl < pos.sl_price then { pos with sl_price := trail_sl } else pos
  else pos

/-- `GlobalPortfolio._recompute_equity`: a position whose symbol has no entry
in `prices` is skipped (contributes nothing). -/
def recomputeEquity (p : GlobalPortfolio) (prices : List (String × ℚ)) :
    GlobalPortfolio :=
  let eq := p.balance +
    (p.positions.map (fun kv =>
      match dlookup prices kv.1 with
      | none => 0
      | some price =>
        let pos := kv.2
        let unreal :=
          if pos.side = "LONG" then (price - pos.entry_price) * pos.qty
          else (pos.entry_price - price) * pos.qty
        unreal - price * pos.qty * p.fee_taker)).sum
  { p with equity := eq }

/-- `GlobalPortfolio._update_adverse_ticks` (`int(move / tick)` is the floor,
the move being non-negative). -/
def updateAdverseTicks (pos : Position) (price : ℚ) : Position :=
  let tick := (dlookup TICK_SIZE pos.symbol).getD 0
  if tick ≤ 0 then { pos with adverse_ticks := 0 }
  else
    let move := if pos.side = "LONG" then max 0 (pos.entry_price - price)
                else max 0 (price - pos.entry_price)
    { pos with adverse_ticks := Int.toNat ⌊move / tick⌋ }

/-- `GlobalPortfolio._check_invalid_imb_close` (the formatted diagnostic text
of the returned reason string is elided; its label is kept). -/
def checkInvalidImbClose (pos : Position) (imbalance : Option ℚ) (now_ts : ℚ) :
    Position × Option String :=
  match imbalance with
  | none => ({ pos with invalid_imb_count := 0 }, none)
  | some imb =>
    if INVALID_IMB_ENABLE = false then ({ pos with invalid_imb_count := 0 }, none)
    else
      let age := now_ts - pos.entry_ts
      if age < INVALID_IMB_MIN_AGE_SEC then ({ pos with invalid_imb_count := 0 }, none)
      else
        let adverse := if pos.side = "LONG" then imb ≤ -INVALID_IMB_THRESHOLD
                       else INVALID_IMB_THRESHOLD ≤ imb
        if adverse = false then ({ pos with invalid_imb_count := 0 }, none)
        else
          let pos := { pos with invalid_imb_count := pos.invalid_imb_count + 1 }
          if pos.invalid_imb_count < INVALID_IMB_CONSEC_SAMPLES then (pos, none)
          else if pos.adverse_ticks < INVALID_IMB_MIN_ADVERSE_TICKS then (pos, none)
          else (pos, some "INVALID_IMB")

/-- `GlobalPortfolio._check_no_progress`. -/
def checkNoProgress (pos : Position) (price ts : ℚ) : Bool :=
  if NO_PROGRESS_EXIT_ENABLE = false then false
  else
    let age_sec := ts - pos.entry_ts
    if age_sec < NO_PROGRESS_MIN_AGE_SEC then false
    else
      let entry := pos.entry_price
      let mfe_pct := if pos.side = "LONG" then (pos.max_favorable_price - entry) / entry
                     else (entry - pos.min_favorable_price) / entry
      let current_pct := if pos.side = "LONG" then (price - entry) / entry
                         else (entry - price) / entry
      if mfe_pct < NO_PROGRESS_MIN_MFE_PCT then false
      else if current_pct ≤ mfe_pct - NO_PROGRESS_GIVEBACK_PCT then true
      else false

/-- `GlobalPortfolio._get_time_stop_limit`. -/
def getTimeStopLimit (vol_norm : Option ℚ) : ℚ :=
  match vol_norm with
  | none => MAX_TRADE_LIFETIME_LOW_VOL_SEC
  | some v =>
    if VOL_NORM_HIGH_THRESHOLD ≤ v then MAX_TRADE_LIFETIME_HIGH_VOL_SEC
    else MAX_TRADE_LIFETIME_LOW_VOL_SEC

/-- `GlobalPortfolio._close_partial`.  The position object is mutated in
place in Python; here the updated position is returned and the caller models
the dict aliasing.  The portfolio part carries balance, day counter and trade
history. -/
def closePartialTp (p : GlobalPortfolio) (pos : Position) (ts exit_price : ℚ)
    (label : String) : GlobalPortfolio × Position × List TradeRecord :=
  let qty_close := pos.qty * PARTIAL_TP_FRACTION
  if qty_close ≤ 0 then (p, pos, [])
  else
    let pnl_price :=
      if pos.side = "LONG" then (exit_price - pos.entry_price) * qty_close
      else (pos.entry_price - exit_price) * qty_close
    let exit_fee := exit_price * qty_close * p.fee_taker
    let total_fees := exit_fee
    let realized := pnl_price - total_fees
    let tr : TradeRecord :=
      { symbol := pos.symbol
        side := pos.side
        entry_price := pos.entry_price
        exit_price := exit_price
        qty := qty_close
        sl_price := pos.sl_price
        tp_price := pos.tp_price
        entry_ts := pos.entry_ts
        exit_ts := ts
        realized_pnl := realized
        fees_paid := total_fees
        reason := label ++ " | " ++ pos.open_reason }
    let pos' := { pos with qty := pos.qty - qty_close, partial_taken := true }
    let p' := { p with
      balance := p.balance + realized
      trades_today := p.trades_today + 1
      trade_history := p.trade_history ++ [tr] }
    (p', pos', [tr])

/-- `GlobalPortfolio._close_full`. -/
def closeFull (p : GlobalPortfolio) (pos : Position) (ts exit_price : ℚ)
    (label : String) : GlobalPortfolio × List TradeRecord :=
  let qty_close := pos.qty
  if qty_close ≤ 0 then (p, [])
  else
    let pnl_price :=
      if pos.side = "LONG" then (exit_price - pos.entry_price) * qty_close
      else (pos.entry_price - exit_price) * qty_close
    let exit_fee := exit_price * qty_close * p.fee_taker
    let total_fees := exit_fee
    let realized := pnl_price - total_fees
    let tr : TradeRecord :=
      { symbol := pos.symbol
        side := pos.side
        entry_price := pos.entry_price
        exit_price := exit_price
        qty := qty_close
        sl_price := pos.sl_price
        tp_price := pos.tp_price
        entry_ts := pos.entry_ts
        exit_ts := ts
        realized_pnl := realized
        fees_paid := total_fees
        reason := label ++ " | " ++ pos.open_reason }
    let trades_hour :=
      (((dlookup p.trades_last_hour pos.symbol).getD []).filter
        (fun t => ts - t < 3600)) ++ [ts]
    let p' := { p with
      balance := p.balance + realized
      trades_today := p.trades_today + 1
      trade_history := p.trade_history ++ [tr]
      last_exit_ts := dinsert pos.symbol ts p.last_exit_ts
      trades_last_hour := dinsert pos.symbol trades_hour p.trades_last_hour
      positions := derase pos.symbol p.positions }
    (p', [tr])

/-- The quick partial take-profit step of `on_price_tick` (the
`if not pos.partial_taken:` block). -/
def tickPartialStep (p : GlobalPortfolio) (pos : Position) (ts price : ℚ) :
    GlobalPortfolio × Position × List TradeRecord :=
  if pos.partial_taken = false then
    let tp1_long := pos.entry_price * (1 + PARTIAL_TP_TRIGGER_PCT)
    let tp1_short := pos.entry_price * (1 - PARTIAL_TP_TRIGGER_PCT)
    if pos.side = "LONG" ∧ tp1_long ≤ price then
      closePartialTp p pos ts tp1_long "TP1_FAST"
    else if pos.side = "SHORT" ∧ price ≤ tp1_short then
      closePartialTp p pos ts tp1_short "TP1_FAST"
    else (p, pos, [])
  else (p, pos, [])

/-- The SL / TP exit decision of `on_price_tick` (a full target exit is gated
on the partial having been taken). -/
def slTpExit (pos : Position) (price : ℚ) : Option (ℚ × String) :=
  if pos.side = "LONG" then
    if price ≤ pos.sl_price then some (pos.sl_price, "SL")
    else if pos.partial_taken = true ∧ pos.tp_price ≤ price then
      some (pos.tp_price, "TP")
    else none
  else
    if pos.sl_price ≤ price then some (pos.sl_price, "SL")
    else if pos.partial_taken = true ∧ price ≤ pos.tp_price then
      some (pos.tp_price, "TP")
    else none

/-- The exit-decision chain of `on_price_tick`: SL/TP, then INVALID_IMB (run
only when no exit price is set yet, and mutating the position's adverse-count),
then NO_PROGRESS, then the dynamic TIME_STOP. -/
def tickExitDecision (pos : Position) (ts price : ℚ)
    (imbalance vol_norm : Option ℚ) : Position × Option (ℚ × String) :=
  match slTpExit pos price with
  | some e => (pos, some e)
  | none =>
    let r := checkInvalidImbClose pos imbalance ts
    match r.2 with
    | some reason => (r.1, some (price, reason))
    | none =>
      if checkNoProgress r.1 price ts then (r.1, some (price, "NO_PROGRESS"))
      else if getTimeStopLimit vol_norm ≤ ts - r.1.entry_ts then
        (r.1, some (price, "TIME_STOP"))
      else (r.1, none)

/-- The position-management body of `GlobalPortfolio.on_price_tick` (between
the day reset and the final equity recomputation).  The in-place mutations of
the position object (which is the very object stored in `self.positions`) are
modelled by writing the updated position back under the tick's symbol at each
stage. -/
def onPriceTickCore (p : GlobalPortfolio) (symbol : String) (ts price : ℚ)
    (imbalance vol_norm : Option ℚ) : GlobalPortfolio × List TradeRecord :=
  match dlookup p.positions symbol with
  | none => (p, [])
  | some pos =>
    let pos := updateTradeManagement pos price
    let pos := updateAdverseTicks pos price
    let p := { p with positions := dinsert symbol pos p.positions }
    let s := tickPartialStep p pos ts price
    let p := { s.1 with positions := dinsert symbol s.2.1 s.1.positions }
    let pos := s.2.1
    let closed₁ := s.2.2
    let d := tickExitDecision pos ts price imbalance vol_norm
    let pos := d.1
    let p := { p with positions := dinsert symbol pos p.positions }
    match d.2 with
    | some el =>
      if 0 < pos.qty then
        let c := closeFull p pos ts el.1 el.2
        (c.1, closed₁ ++ c.2)
      else (p, closed₁)
    | none => (p, closed₁)

/-- `GlobalPortfolio.on_price_tick`: the day reset, the management body, and
the final equity recomputation with the one price this tick knows. -/
def onPriceTick (p : GlobalPortfolio) (symbol : String) (ts price : ℚ)
    (vol imbalance vol_norm : Option ℚ) : GlobalPortfolio × List TradeRecord :=
  let r := onPriceTickCore (p.resetIfNewDay ts) symbol ts price imbalance vol_norm
  (r.1.recomputeEquity [(symbol, price)], r.2)

end GlobalPortfolio

/-! ## Iterated management (a per-instrument tick sequence) -/

structure Tick where
  ts : ℚ
  price : ℚ
  vol : Option ℚ := none
  imbalance : Option ℚ := none
  vol_norm : Option ℚ := none
  deriving DecidableEq, Repr

/-- `on_price_tick` folded over a sequence of ticks of one instrument,
accumulating the emitted trade records. -/
def runTicks (p : GlobalPortfolio) (symbol : String) :
    List Tick → GlobalPortfolio × List TradeRecord
  | [] => (p, [])
  | t :: rest =>
    let r := p.onPriceTick symbol t.ts t.price t.vol t.imbalance t.vol_norm
    let r' := runTicks r.1 symbol rest
    (r'.1, r.2 ++ r'.2)

/-- `_update_trade_management` folded over a price sequence. -/
def manageFold (pos : Position) (prices : List ℚ) : Position :=
  prices.foldl GlobalPortfolio.updateTradeManagement pos

/-- Total closed quantity of a record list. -/
def sumQty (recs : List TradeRecord) : ℚ := (recs.map TradeRecord.qty).sum

/-- How many of the records are fast-partial records of a position whose
open reason is `o` (their reason string is `"TP1_FAST | " ++ o`). -/
def countPartialRecs (o : String) (recs : List TradeRecord) : ℕ :=
  recs.countP (fun r => decide (r.reason = "TP1_FAST | " ++ o))

/-! ## Order-book imbalance (src/sniper_flow_bot/analysis/book_imbalance.py) -/

/-- Quantity summed over the top `d` levels of a book side. -/
def topVol (l : List (ℚ × ℚ)) (d : ℕ) : ℚ := ((l.take d).map Prod.snd).sum

/-- `order_book_imbalance`. -/
def order_book_imbalance (bids asks : List (ℚ × ℚ)) (depth_levels : ℕ) : ℚ :=
  if bids = [] ∨ asks = [] then 0
  else
    let bid_vol := topVol bids depth_levels
    let ask_vol := topVol asks depth_levels
    let total := bid_vol + ask_vol
    if total ≤ 0 then 0
    else (bid_vol - ask_vol) / total

/-! ## MarketStats.get_smooth_imbalance (src/analysis/market_stats.py) -/

/-- Python `list(l)[-window:]`: the trailing `window` elements, the whole list
when `window = 0` (`l[-0:]` is `l[0:]`). -/
def lastSlice (l : List ℚ) (window : ℕ) : List ℚ :=
  if window = 0 then l else l.drop (l.length - window)

/-- `np.mean` of a list of rationals (only ever applied to a non-empty list
on the reachable path). -/
def listMean (l : List ℚ) : ℚ := l.sum / l.length

/-- `MarketStats.get_smooth_imbalance`, as a function of the contents of the
`imbalances` deque (oldest first). -/
def get_smooth_imbalance (imbalances : List ℚ) (window : ℕ) : Option ℚ :=
  match imbalances with
  | [] => none
  | x :: xs =>
    if (x :: xs).length < window then some ((x :: xs).getLast (List.cons_ne_nil x xs))
    else some (listMean (lastSlice (x :: xs) window))

/-! ## SignalScorer (src/strategy/scalper_logic.py)

`generate_signal` first pulls volatility, smoothed imbalance, cvd slope and
normalized volume from `MarketStats`; those metric values, and the contents
of the price deque and the length of the cvd deque that the history and
anti-chase checks read, are the inputs of the embedding. -/

structure StrategyInputs where
  vol : Option ℚ
  smooth_imb : Option ℚ
  cvd_slope : Option ℚ
  vol_norm : Option ℚ
  prices : List ℚ
  cvdLen : ℕ
  deriving DecidableEq, Repr

/-- `classify_cvd`. -/
def classify_cvd (cvd_slope : ℚ) : String :=
  if CVD_SLOPE_STRONG_UP ≤ cvd_slope then "CVD_STRONG_BULLISH"
  else if CVD_SLOPE_WEAK_UP ≤ cvd_slope then "CVD_WEAK_BULLISH"
  else if cvd_slope ≤ CVD_SLOPE_STRONG_DOWN then "CVD_STRONG_BEARISH"
  else if cvd_slope ≤ CVD_SLOPE_WEAK_DOWN then "CVD_WEAK_BEARISH"
  else "CVD_NEUTRAL"

/-- Module-level `_imbalance_score`. -/
def imbalanceScoreRaw (imbalance : Option ℚ) : ℚ × ℚ :=
  match imbalance with
  | none => (0, 0)
  | some imb =>
    let long_score :=
      if 0 < imb ∧ IMBALANCE_LONG_ENTRY < 1 ∧ IMBALANCE_LONG_ENTRY < imb then
        let frac := (imb - IMBALANCE_LONG_ENTRY) / max (1/1000000000) (1 - IMBALANCE_LONG_ENTRY)
        let frac := min 1 (max 0 frac)
        IMBALANCE_SCORE_BASE + frac * (IMBALANCE_SCORE_MAX - IMBALANCE_SCORE_BASE)
      else 0
    let short_score :=
      if imb < 0 ∧ IMBALANCE_SHORT_ENTRY < 0 ∧ imb < IMBALANCE_SHORT_ENTRY then
        let denom := IMBALANCE_SHORT_ENTRY - (-1)
        let frac := (IMBALANCE_SHORT_ENTRY - imb) / max (1/1000000000) denom
        let frac := min 1 (max 0 frac)
        IMBALANCE_SCORE_BASE + frac * (IMBALANCE_SCORE_MAX - IMBALANCE_SCORE_BASE)
      else 0
    (long_score, short_score)

/-- `ScalperStrategy._calculate_cvd_score`. -/
def calculateCvdScore (cvd_slope : ℚ) : ℚ × ℚ :=
  let c := classify_cvd cvd_slope
  let long_score : ℚ :=
    if c = "CVD_STRONG_BULLISH" then 100 else if c = "CVD_WEAK_BULLISH" then 60 else 0
  let short_score : ℚ :=
    if c = "CVD_STRONG_BEARISH" then 100 else if c = "CVD_WEAK_BEARISH" then 60 else 0
  if |cvd_slope| < CVD_SLOPE_THRESHOLD then (long_score * (1/2), short_score * (1/2))
  else (long_score, short_score)

/-- `ScalperStrategy._calculate_imbalance_score`. -/
def calculateImbalanceScore (imbalance : ℚ) : ℚ × ℚ :=
  let r := imbalanceScoreRaw (some imbalance)
  let norm_long := if 0 < IMBALANCE_SCORE_MAX then r.1 / IMBALANCE_SCORE_MAX * 100 else 0
  let norm_short := if 0 < IMBALANCE_SCORE_MAX then r.2 / IMBALANCE_SCORE_MAX * 100 else 0
  (norm_long, norm_short)

/-- `ScalperStrategy._calculate_volume_score`. -/
def calculateVolumeScore (vol_norm vol : ℚ) : ℚ :=
  if ¬(VOLATILITY_MIN < vol ∧ vol < VOLATILITY_MAX) then 0
  else if vol_norm < MIN_VOL_NORM then 0
  else if BONUS_VOL_NORM < vol_norm then 100
  else
    let score := (vol_norm - MIN_VOL_NORM) / (BONUS_VOL_NORM - MIN_VOL_NORM) * 100
    max 0 (min 100 score)

/-- The weighted combination of the three component scores: the long and
short combined scores, each in 0–100. -/
def scalperScores (cvd_slope smooth_imb vol_norm vol : ℚ) : ℚ × ℚ :=
  let c := calculateCvdScore cvd_slope
  let i := calculateImbalanceScore smooth_imb
  let v := calculateVolumeScore vol_norm vol
  let total_weight := SCORE_WEIGHT_CVD + SCORE_WEIGHT_IMBALANCE + SCORE_WEIGHT_VOLUME
  ((c.1 * SCORE_WEIGHT_CVD + i.1 * SCORE_WEIGHT_IMBALANCE + v * SCORE_WEIGHT_VOLUME)
      / total_weight,
   (c.2 * SCORE_WEIGHT_CVD + i.2 * SCORE_WEIGHT_IMBALANCE + v * SCORE_WEIGHT_VOLUME)
      / total_weight)

/-- The decision step of `generate_signal` (its `--- 5. Decision Logic ---`
block): the chosen side and its score, or nothing. -/
def signalDecision (score_long score_short : ℚ) : Option (String × ℚ) :=
  if SCORE_MIN_FOR_CANDIDATE ≤ score_long ∧ score_short < score_long then
    some ("LONG", score_long)
  else if SCORE_MIN_FOR_CANDIDATE ≤ score_short ∧ score_long < score_short then
    some ("SHORT", score_short)
  else none

/-- `ScalperStrategy.generate_signal` (the formatted reason text is elided;
the classification and risk multiplier are kept). -/
def generate_signal (symbol : String) (inp : StrategyInputs) (ts price : ℚ)
    (imbalance : ℚ) : Option Signal :=
  match inp.vol, inp.smooth_imb, inp.cvd_slope, inp.vol_norm with
  | some vol, some smooth_imb, some cvd_slope, some vol_norm =>
    if inp.prices.length < 50 ∨ inp.cvdLen < 50 then none
    else if ANTI_CHASE_ENABLE = true ∧ ANTI_CHASE_LOOKBACK_TICKS < inp.prices.length ∧
        ANTI_CHASE_MAX_MOVE_PCT <
          |price - inp.prices.getD (inp.prices.length - ANTI_CHASE_LOOKBACK_TICKS) 0|
            / inp.prices.getD (inp.prices.length - ANTI_CHASE_LOOKBACK_TICKS) 0 then
      none
    else
      let s := scalperScores cvd_slope smooth_imb vol_norm vol
      match signalDecision s.1 s.2 with
      | none => none
      | some fs =>
        let risk_mult := if SCORE_SNIPER_MIN ≤ fs.2 then HIGH_CONV_RISK_MULT else 1
        let score_class := if SCORE_SNIPER_MIN ≤ fs.2 then "SNIPER" else "STANDARD"
        some { symbol := symbol
               side := fs.1
               score := fs.2
               reason := "SCORE_" ++ fs.1
               risk_mult := risk_mult
               score_class := score_class }
  | _, _, _, _ => none

/-! ## Claim-side comparison definitions

These two definitions follow the words of the specification (not the code):
they are the equity the spec describes, summed over ALL open positions at the
latest known price of each position's instrument. -/

/-- Equity as claim C1 words it: balance plus, over all open positions,
unrealized PnL minus the estimated exit taker fee, each at the latest known
price for that position's instrument. -/
def equityAllOpenPositions (p : GlobalPortfolio) (latest : List (String × ℚ)) : ℚ :=
  p.balance +
    (p.positions.map (fun kv =>
      match dlookup latest kv.1 with
      | none => 0
      | some price =>
        (if kv.2.side = "LONG" then (price - kv.2.entry_price) * kv.2.qty
         else (kv.2.entry_price - price) * kv.2.qty)
          - price * kv.2.qty * p.fee_taker)).sum

/-- Equity as claim C2 words it: balance plus mark-to-market unrealized PnL
across all open positions (no fee estimate). -/
def equityMarkToMarket (p : GlobalPortfolio) (latest : List (String × ℚ)) : ℚ :=
  p.balance +
    (p.positions.map (fun kv =>
      match dlookup latest kv.1 with
      | none => 0
      | some price =>
        if kv.2.side = "LONG" then (price - kv.2.entry_price) * kv.2.qty
        else (kv.2.entry_price - price) * kv.2.qty)).sum

/-- The per-position equity contribution that `on_price_tick` actually uses:
only the position of the instrument that ticked contributes, at the tick
price. -/
def tickedContribution (sym : String) (price fee_taker : ℚ)
    (kv : String × Position) : ℚ :=
  if kv.1 = sym then
    (if kv.2.side = "LONG" then (price - kv.2.entry_price) * kv.2.qty
     else (kv.2.entry_price - price) * kv.2.qty) - price * kv.2.qty * fee_taker
  else 0

/-! ## Concrete instances used by witnesses and counterexamples -/

/-- A standard LONG signal for ethusdt. -/
def sigE : Signal :=
  { symbol := "ethusdt", side := "LONG", score := 50, reason := "sE"
    risk_mult := 1, score_class := "STANDARD" }

/-- A standard LONG signal for btcusdt. -/
def sigB : Signal :=
  { symbol := "btcusdt", side := "LONG", score := 50, reason := "sB"
    risk_mult := 1, score_class := "STANDARD" }

/-- A fresh portfolio after a successful LONG open on ethusdt at 100. -/
def scnP1 : GlobalPortfolio :=
  (initPortfolio.openPosition "ethusdt" 10 100 sigE (996/10) 0 "LONG").1

/-- `scnP1` after a successful LONG open on btcusdt at 50. -/
def scnP2 : GlobalPortfolio :=
  (scnP1.openPosition "btcusdt" 12 50 sigB (498/10) 0 "LONG").1

/-- `scnP2` after a btcusdt tick at its entry price (both positions open). -/
def scnP3 : GlobalPortfolio :=
  (scnP2.onPriceTick "btcusdt" 14 50 none none none).1

/-- `scnP3` after an ethusdt tick at 100.2 (both positions still open). -/
def scnP4 : GlobalPortfolio :=
  (scnP3.onPriceTick "ethusdt" 16 (501/5) none none none).1

/-- `scnP1` after an ethusdt tick at 100.2 (position still open, equity now
differs from balance). -/
def scnQ2 : GlobalPortfolio :=
  (scnP1.onPriceTick "ethusdt" 12 (501/5) none none none).1

/-- A portfolio with one stale (older than an hour) entry in btcusdt's
hourly-rate list, on its current day. -/
def rejP : GlobalPortfolio :=
  { initPortfolio with current_day := some 1
                       trades_last_hour := [("btcusdt", [0])] }

/-- A LONG position whose breakeven has already been applied (stop at entry). -/
def posBE : Position :=
  { symbol := "btcusdt"
    side := "LONG"
    entry_price := 100
    qty := 1
    initial_qty := 1
    sl_price := 100
    tp_price := 102
    entry_ts := 0
    entry_imbalance := 0
    risk_pct := 3/100
    breakeven_done := true
    max_favorable_price := 100
    min_favorable_price := 100
    min_adverse_price := 100
    max_adverse_price := 100 }

/-- A portfolio that already holds a btcusdt position. -/
def rejExisting : GlobalPortfolio :=
  { initPortfolio with positions := [("btcusdt", posBE)] }

end Bot

namespace Bot

/-! ## Association-list lemmas -/

theorem dlookup_dinsert_self {α : Type} (k : String) (v : α) (l : List (String × α)) :
    dlookup (dinsert k v l) k = some v := by
  induction l with
  | nil => simp [dinsert, dlookup]
  | cons h t ih =>
    obtain ⟨k', v'⟩ := h
    by_cases hk : k' = k
    · simp [dinsert, dlookup, hk]
    · simp [dinsert, dlookup, hk, ih]

theorem dlookup_dinsert_ne {α : Type} (k k' : String) (v : α) (l : List (String × α))
    (h : k ≠ k') : dlookup (dinsert k v l) k' = dlookup l k' := by
  induction l with
  | nil => simp [dinsert, dlookup, h]
  | cons hd t ih =>
    obtain ⟨k₁, v₁⟩ := hd
    by_cases hk : k₁ = k
    · subst hk
      simp [dinsert, dlookup, h]
    · simp [dinsert, dlookup, hk, ih]

theorem dlookup_not_mem {α : Type} (l : List (String × α)) (k : String)
    (h : k ∉ l.map Prod.fst) : dlookup l k = none := by
  induction l with
  | nil => simp [dlookup]
  | cons hd t ih =>
    obtain ⟨k₁, v₁⟩ := hd
    simp only [List.map_cons, List.mem_cons, not_or] at h
    have hne : ¬ k₁ = k := fun he => h.1 he.symm
    simp [dlookup, hne, ih h.2]

theorem dinsert_keys_mem {α : Type} (k : String) (v : α) (l : List (String × α)) :
    ∀ x, x ∈ (dinsert k v l).map Prod.fst → x = k ∨ x ∈ l.map Prod.fst := by
  induction l with
  | nil => intro x hx; simpa [dinsert] using hx
  | cons hd t ih =>
    obtain ⟨k₁, v₁⟩ := hd
    intro x hx
    by_cases hk : k₁ = k
    · simp only [dinsert, if_pos hk, List.map_cons, List.mem_cons] at hx ⊢
      tauto
    · simp only [dinsert, if_neg hk, List.map_cons, List.mem_cons] at hx ⊢
      rcases hx with hx | hx
      · tauto
      · rcases ih x hx with hx' | hx' <;> tauto

theorem derase_keys_mem {α : Type} (k : String) (l : List (String × α)) :
    ∀ x, x ∈ (derase k l).map Prod.fst → x ∈ l.map Prod.fst := by
  induction l with
  | nil => intro x hx; simpa [derase] using hx
  | cons hd t ih =>
    obtain ⟨k₁, v₁⟩ := hd
    intro x hx
    by_cases hk : k₁ = k
    · simp only [derase, if_pos hk] at hx
      simp [List.mem_cons, hx]
    · simp only [derase, if_neg hk, List.map_cons, List.mem_cons] at hx ⊢
      rcases hx with hx | hx
      · tauto
      · exact Or.inr (ih x hx)

theorem dinsert_cons_eq {α : Type} (k k₁ : String) (v v₁ : α) (t : List (String × α))
    (h : k₁ = k) : dinsert k v ((k₁, v₁) :: t) = (k, v) :: t := by
  simp [dinsert, h]

theorem dinsert_cons_ne {α : Type} (k k₁ : String) (v v₁ : α) (t : List (String × α))
    (h : ¬ k₁ = k) : dinsert k v ((k₁, v₁) :: t) = (k₁, v₁) :: dinsert k v t := by
  simp [dinsert, h]

theorem derase_cons_eq {α : Type} (k k₁ : String) (v₁ : α) (t : List (String × α))
    (h : k₁ = k) : derase k ((k₁, v₁) :: t) = t := by
  simp [derase, h]

theorem derase_cons_ne {α : Type} (k k₁ : String) (v₁ : α) (t : List (String × α))
    (h : ¬ k₁ = k) : derase k ((k₁, v₁) :: t) = (k₁, v₁) :: derase k t := by
  simp [derase, h]

theorem dlookup_derase_self {α : Type} (k : String) (l : List (String × α))
    (h : keysNodup l) : dlookup (derase k l) k = none := by
  induction l with
  | nil => simp [derase, dlookup]
  | cons hd t ih =>
    obtain ⟨k₁, v₁⟩ := hd
    rw [keysNodup, List.map_cons, List.nodup_cons] at h
    by_cases hk : k₁ = k
    · subst hk
      rw [derase_cons_eq k₁ k₁ v₁ t rfl]
      exact dlookup_not_mem t k₁ h.1
    · rw [derase_cons_ne k k₁ v₁ t hk]
      simp only [dlookup]
      rw [if_neg hk]
      exact ih h.2

theorem keysNodup_dinsert {α : Type} (k : String) (v : α) (l : List (String × α))
    (h : keysNodup l) : keysNodup (dinsert k v l) := by
  induction l with
  | nil => simp [dinsert, keysNodup]
  | cons hd t ih =>
    obtain ⟨k₁, v₁⟩ := hd
    rw [keysNodup, List.map_cons, List.nodup_cons] at h
    by_cases hk : k₁ = k
    · subst hk
      rw [keysNodup, dinsert_cons_eq k₁ k₁ v v₁ t rfl, List.map_cons, List.nodup_cons]
      exact ⟨h.1, h.2⟩
    · rw [keysNodup, dinsert_cons_ne k k₁ v v₁ t hk, List.map_cons, List.nodup_cons]
      refine ⟨fun hm => ?_, ?_⟩
      · rcases dinsert_keys_mem k v t k₁ hm with he | he
        · exact hk he
        · exact h.1 he
      · rw [keysNodup] at ih
        exact ih h.2

theorem keysNodup_derase {α : Type} (k : String) (l : List (String × α))
    (h : keysNodup l) : keysNodup (derase k l) := by
  induction l with
  | nil => simpa [derase] using h
  | cons hd t ih =>
    obtain ⟨k₁, v₁⟩ := hd
    rw [keysNodup, List.map_cons, List.nodup_cons] at h
    by_cases hk : k₁ = k
    · rw [keysNodup, derase_cons_eq k k₁ v₁ t hk]
      exact h.2
    · rw [keysNodup, derase_cons_ne k k₁ v₁ t hk, List.map_cons, List.nodup_cons]
      refine ⟨fun hm => h.1 (derase_keys_mem k t k₁ hm), ?_⟩
      rw [keysNodup] at ih
      exact ih h.2

/-! ## C10 — dynamic time stop -/

/-- C10: when the normalized-volume input is `None`, `_get_time_stop_limit`
returns the low-volatility lifetime limit, which is the longer one; the
shorter high-volatility limit is selected exactly when normalized volume is
present and at or above the high-volatility threshold. -/
theorem C10_time_stop_none_uses_long_limit :
    GlobalPortfolio.getTimeStopLimit none = MAX_TRADE_LIFETIME_LOW_VOL_SEC ∧
    MAX_TRADE_LIFETIME_HIGH_VOL_SEC < MAX_TRADE_LIFETIME_LOW_VOL_SEC ∧
    ∀ v : ℚ, GlobalPortfolio.getTimeStopLimit (some v) =
      if VOL_NORM_HIGH_THRESHOLD ≤ v then MAX_TRADE_LIFETIME_HIGH_VOL_SEC
      else MAX_TRADE_LIFETIME_LOW_VOL_SEC := by
  refine ⟨rfl, ?_, fun v => rfl⟩
  norm_num [MAX_TRADE_LIFETIME_HIGH_VOL_SEC, MAX_TRADE_LIFETIME_LOW_VOL_SEC]

/-! ## C9 — smoothed imbalance cold start -/

/-- C9: with zero recorded samples `get_smooth_imbalance` returns `none` for
every window; the fallback to the most recent sample happens exactly when at
least one sample exists but fewer than the window; with at least `window`
samples it returns the mean of the trailing slice. -/
theorem C9_smooth_imbalance_empty_none :
    ∀ (l : List ℚ) (w : ℕ),
      (l = [] → get_smooth_imbalance l w = none) ∧
      (l ≠ [] → l.length < w → get_smooth_imbalance l w = l.getLast?) ∧
      (l ≠ [] → w ≤ l.length →
        get_smooth_imbalance l w = some (listMean (lastSlice l w))) := by
  intro l w
  refine ⟨fun h => by subst h; rfl, ?_, ?_⟩
  · intro hne hlt
    cases l with
    | nil => exact (hne rfl).elim
    | cons x xs =>
      simp only [get_smooth_imbalance, if_pos hlt]
      rw [List.getLast?_eq_getLast _ (List.cons_ne_nil x xs)]
  · intro hne hge
    cases l with
    | nil => exact (hne rfl).elim
    | cons x xs =>
      simp only [get_smooth_imbalance, if_neg (not_lt.mpr hge)]

/-! ## C8 — order-book imbalance -/

theorem topVol_nonneg (l : List (ℚ × ℚ)) (d : ℕ) (h : ∀ x ∈ l, 0 ≤ x.2) :
    0 ≤ topVol l d := by
  refine List.sum_nonneg ?_
  intro q hq
  simp only [List.mem_map] at hq
  obtain ⟨x, hx, rfl⟩ := hq
  exact h x (List.take_subset d l hx)

/-- C8: `order_book_imbalance` returns 0 when the bid list is empty, the ask
list is empty, or the combined top-depth volume is non-positive (the
asks-empty-bids-present case returns 0); otherwise it returns
`(bidVol − askVol)/(bidVol + askVol)` over the top depth levels, which for a
book with non-negative level quantities lies in [-1, 1]. -/
theorem C8_book_imbalance_cases :
    ∀ (bids asks : List (ℚ × ℚ)) (d : ℕ),
      ((bids = [] ∨ asks = [] ∨ topVol bids d + topVol asks d ≤ 0) →
        order_book_imbalance bids asks d = 0) ∧
      (bids ≠ [] → asks ≠ [] → 0 < topVol bids d + topVol asks d →
        order_book_imbalance bids asks d
            = (topVol bids d - topVol asks d) / (topVol bids d + topVol asks d) ∧
          ((∀ x ∈ bids, 0 ≤ x.2) → (∀ x ∈ asks, 0 ≤ x.2) →
            -1 ≤ order_book_imbalance bids asks d ∧
              order_book_imbalance bids asks d ≤ 1)) := by
  intro bids asks d
  constructor
  · rintro (h | h | h)
    · simp [order_book_imbalance, h]
    · simp [order_book_imbalance, h]
    · by_cases hb : bids = []
      · simp [order_book_imbalance, hb]
      · by_cases ha : asks = []
        · simp [order_book_imbalance, ha]
        · simp only [order_book_imbalance, if_neg (not_or.mpr ⟨hb, ha⟩)]
          rw [if_pos h]
  · intro hb ha ht
    have heq : order_book_imbalance bids asks d
        = (topVol bids d - topVol asks d) / (topVol bids d + topVol asks d) := by
      simp only [order_book_imbalance, if_neg (not_or.mpr ⟨hb, ha⟩)]
      rw [if_neg (not_le.mpr ht)]
    refine ⟨heq, fun hbq haq => ?_⟩
    have h1 : 0 ≤ topVol bids d := topVol_nonneg bids d hbq
    have h2 : 0 ≤ topVol asks d := topVol_nonneg asks d haq
    rw [heq]
    constructor
    · rw [le_div_iff₀ ht]
      linarith
    · rw [div_le_one ht]
      linarith

/-! ## C2 — quantity sizing uses balance, not equity -/

/-- C2 (amended): for every sizing call with a positive stop distance, when
the margin check does not bind, `_calc_qty_from_risk` returns
`(balance × risk fraction) / |entry − stop|` — the balance, not the
mark-to-market equity. -/
theorem C2_qty_from_balance (p : GlobalPortfolio) (entry sl risk : ℚ)
    (h1 : 0 < |entry - sl|)
    (h2 : entry * (p.balance * risk / |entry - sl|) / LEVERAGE ≤ p.balance) :
    p.calcQtyFromRisk entry sl risk = some (p.balance * risk / |entry - sl|) := by
  simp only [GlobalPortfolio.calcQtyFromRisk]
  rw [if_neg (not_le.mpr h1), if_neg (not_lt.mpr h2)]

/-- C2 witness: the sizing formula at a concrete state. -/
theorem C2_qty_from_balance_witness :
    initPortfolio.calcQtyFromRisk 100 99 (3/100)
      = some (initPortfolio.balance * (3/100) / |(100 : ℚ) - 99|) :=
  C2_qty_from_balance initPortfolio 100 99 (3/100) (by norm_num)
    (by norm_num [initPortfolio, INITIAL_BALANCE, LEVERAGE])

/-! ## C5 — stop is never loosened once breakeven has triggered -/

theorem mgmt_preserves (pos : Position) (price : ℚ) :
    (GlobalPortfolio.updateTradeManagement pos price).side = pos.side ∧
    (GlobalPortfolio.updateTradeManagement pos price).qty = pos.qty ∧
    (GlobalPortfolio.updateTradeManagement pos price).initial_qty = pos.initial_qty ∧
    (GlobalPortfolio.updateTradeManagement pos price).partial_taken = pos.partial_taken ∧
    (GlobalPortfolio.updateTradeManagement pos price).open_reason = pos.open_reason ∧
    (GlobalPortfolio.updateTradeManagement pos price).symbol = pos.symbol ∧
    (GlobalPortfolio.updateTradeManagement pos price).entry_price = pos.entry_price ∧
    (GlobalPortfolio.updateTradeManagement pos price).entry_ts = pos.entry_ts ∧
    (GlobalPortfolio.updateTradeManagement pos price).tp_price = pos.tp_price ∧
    (GlobalPortfolio.updateTradeManagement pos price).invalid_imb_count
      = pos.invalid_imb_count := by
  simp only [GlobalPortfolio.updateTradeManagement]
  split_ifs <;> simp

theorem mgmt_be_mono (pos : Position) (price : ℚ) (h : pos.breakeven_done = true) :
    (GlobalPortfolio.updateTradeManagement pos price).breakeven_done = true ∧
    (pos.side = "LONG" →
      pos.sl_price ≤ (GlobalPortfolio.updateTradeManagement pos price).sl_price) ∧
    (pos.side ≠ "LONG" →
      (GlobalPortfolio.updateTradeManagement pos price).sl_price ≤ pos.sl_price) := by
  simp only [GlobalPortfolio.updateTradeManagement, h]
  split_ifs <;> simp_all <;> linarith

/-- C5: once breakeven has triggered (the stop has been set at the entry
price), any further sequence of management ticks never loosens the stop: for
a LONG position the stop never decreases, for a SHORT position it never
increases. -/
theorem C5_stop_monotone_after_breakeven :
    ∀ (pos : Position) (prices : List ℚ), pos.breakeven_done = true →
      (pos.side = "LONG" → pos.sl_price ≤ (manageFold pos prices).sl_price) ∧
      (pos.side = "SHORT" → (manageFold pos prices).sl_price ≤ pos.sl_price) := by
  intro pos prices
  induction prices generalizing pos with
  | nil =>
    intro _
    exact ⟨fun _ => le_refl _, fun _ => le_refl _⟩
  | cons a t ih =>
    intro h
    have hs := mgmt_be_mono pos a h
    have hside : (GlobalPortfolio.updateTradeManagement pos a).side = pos.side :=
      (mgmt_preserves pos a).1
    have hrec := ih (GlobalPortfolio.updateTradeManagement pos a) hs.1
    have hfold : manageFold pos (a :: t)
        = manageFold (GlobalPortfolio.updateTradeManagement pos a) t := rfl
    rw [hfold]
    constructor
    · intro hL
      exact le_trans (hs.2.1 hL) (hrec.1 (by rw [hside]; exact hL))
    · intro hS
      refine le_trans (hrec.2 (by rw [hside]; exact hS)) ?_
      exact hs.2.2 (by rw [hS]; intro hc; exact absurd hc (by decide))

/-- C5 witness: a concrete breakeven-done LONG position and tick sequence. -/
theorem C5_stop_monotone_witness :
    posBE.sl_price ≤ (manageFold posBE [101, 99, 102]).sl_price :=
  (C5_stop_monotone_after_breakeven posBE [101, 99, 102] rfl).1 rfl

/-! ## C7 — scorer decision logic -/

theorem signalDecision_none (sl ss : ℚ)
    (h : sl = ss ∨ (sl < SCORE_MIN_FOR_CANDIDATE ∧ ss < SCORE_MIN_FOR_CANDIDATE)) :
    signalDecision sl ss = none := by
  unfold signalDecision
  rcases h with h | h
  · subst h
    rw [if_neg (fun hc => lt_irrefl sl hc.2), if_neg (fun hc => lt_irrefl sl hc.2)]
  · rw [if_neg (fun hc => absurd hc.1 (not_le.mpr h.1)),
      if_neg (fun hc => absurd hc.1 (not_le.mpr h.2))]

theorem signalDecision_some (sl ss : ℚ) (side : String) (sc : ℚ)
    (h : signalDecision sl ss = some (side, sc)) :
    (side = "LONG" ∧ sc = sl ∧ SCORE_MIN_FOR_CANDIDATE ≤ sl ∧ ss < sl) ∨
    (side = "SHORT" ∧ sc = ss ∧ SCORE_MIN_FOR_CANDIDATE ≤ ss ∧ sl < ss) := by
  unfold signalDecision at h
  split_ifs at h with h1 h2
  · left
    obtain ⟨hside, hsc⟩ := Prod.mk.injEq .. ▸ Option.some.injEq .. ▸ h
    exact ⟨hside.symm, hsc.symm, h1.1, h1.2⟩
  · right
    obtain ⟨hside, hsc⟩ := Prod.mk.injEq .. ▸ Option.some.injEq .. ▸ h
    exact ⟨hside.symm, hsc.symm, h2.1, h2.2⟩

/-- C7: the scorer emits no signal when the combined long and short scores
tie, or when both are below the candidate minimum; and whenever it emits a
signal, the chosen side's combined score meets the minimum and strictly
exceeds the opposite side's score (and is the signal's score). -/
theorem C7_scorer_decision :
    (∀ (sym : String) (inp : StrategyInputs) (ts price imb v si cs vn : ℚ),
      inp.vol = some v → inp.smooth_imb = some si → inp.cvd_slope = some cs →
      inp.vol_norm = some vn →
      ((scalperScores cs si vn v).1 = (scalperScores cs si vn v).2 ∨
        ((scalperScores cs si vn v).1 < SCORE_MIN_FOR_CANDIDATE ∧
          (scalperScores cs si vn v).2 < SCORE_MIN_FOR_CANDIDATE)) →
      generate_signal sym inp ts price imb = none) ∧
    (∀ (sym : String) (inp : StrategyInputs) (ts price imb : ℚ) (sig : Signal),
      generate_signal sym inp ts price imb = some sig →
      ∃ v si cs vn, inp.vol = some v ∧ inp.smooth_imb = some si ∧
        inp.cvd_slope = some cs ∧ inp.vol_norm = some vn ∧
        SCORE_MIN_FOR_CANDIDATE ≤ sig.score ∧
        ((sig.side = "LONG" ∧ sig.score = (scalperScores cs si vn v).1 ∧
            (scalperScores cs si vn v).2 < (scalperScores cs si vn v).1) ∨
          (sig.side = "SHORT" ∧ sig.score = (scalperScores cs si vn v).2 ∧
            (scalperScores cs si vn v).1 < (scalperScores cs si vn v).2))) := by
  constructor
  · intro sym inp ts price imb v si cs vn h1 h2 h3 h4 hts
    simp only [generate_signal, h1, h2, h3, h4]
    split_ifs
    · rfl
    · rfl
    · rw [signalDecision_none _ _ hts]
  · intro sym inp ts price imb sig h
    cases hv : inp.vol with
    | none => rw [generate_signal, hv] at h; cases h
    | some v =>
    cases hsi : inp.smooth_imb with
    | none => rw [generate_signal, hv, hsi] at h; cases h
    | some si =>
    cases hcs : inp.cvd_slope with
    | none => rw [generate_signal, hv, hsi, hcs] at h; cases h
    | some cs =>
    cases hvn : inp.vol_norm with
    | none => rw [generate_signal, hv, hsi, hcs, hvn] at h; cases h
    | some vn =>
    refine ⟨v, si, cs, vn, rfl, rfl, rfl, rfl, ?_⟩
    simp only [generate_signal, hv, hsi, hcs, hvn] at h
    split_ifs at h
    cases hsd : signalDecision (scalperScores cs si vn v).1 (scalperScores cs si vn v).2 with
    | none => rw [hsd] at h; cases h
    | some fs =>
      rw [hsd] at h
      obtain ⟨side, sc⟩ := fs
      have hrec := Option.some.injEq .. ▸ h
      have hside : sig.side = side := by rw [← hrec]
      have hscore : sig.score = sc := by rw [← hrec]
      rcases signalDecision_some _ _ side sc hsd with ⟨ha, hb, hc, hd⟩ | ⟨ha, hb, hc, hd⟩
      · rw [hside, hscore, ha, hb]
        exact ⟨hc, Or.inl ⟨rfl, rfl, hd⟩⟩
      · rw [hside, hscore, ha, hb]
        exact ⟨hc, Or.inr ⟨rfl, rfl, hd⟩⟩

/-! ## Evaluation helpers for concrete states -/

theorem option_none_eq_some_false {α : Type} (a : α) :
    ((none : Option α) = some a) = False := by simp

theorem str_eq_false₁ : (("LONG" : String) = "SHORT") = False := by decide
theorem str_eq_false₂ : (("SHORT" : String) = "LONG") = False := by decide
theorem str_eq_false₃ : (("ethusdt" : String) = "btcusdt") = False := by decide
theorem str_eq_false₄ : (("btcusdt" : String) = "ethusdt") = False := by decide

/-! ## Frame lemmas for the day reset and the open-guard chain -/

theorem reset_preserves (p : GlobalPortfolio) (ts : ℚ) :
    (p.resetIfNewDay ts).balance = p.balance ∧
    (p.resetIfNewDay ts).equity = p.equity ∧
    (p.resetIfNewDay ts).positions = p.positions ∧
    (p.resetIfNewDay ts).trade_history = p.trade_history ∧
    (p.resetIfNewDay ts).last_exit_ts = p.last_exit_ts ∧
    (p.resetIfNewDay ts).trades_last_hour = p.trades_last_hour ∧
    (p.resetIfNewDay ts).fee_maker = p.fee_maker ∧
    (p.resetIfNewDay ts).fee_taker = p.fee_taker := by
  simp only [GlobalPortfolio.resetIfNewDay]
  split_ifs <;> simp

theorem canOpen_state (p : GlobalPortfolio) (ts risk : ℚ) :
    (p.canOpenTrade ts risk).1 = p.resetIfNewDay ts := by
  simp only [GlobalPortfolio.canOpenTrade]
  split_ifs <;> rfl

theorem reset_trades_today_hourly (p : GlobalPortfolio) (X : List (String × List ℚ))
    (ts : ℚ) :
    ({ p with trades_last_hour := X }.resetIfNewDay ts).trades_today
      = (p.resetIfNewDay ts).trades_today := by
  simp only [GlobalPortfolio.resetIfNewDay]
  split_ifs <;> rfl

/-! ## C4 — rejected opens leave the core state untouched (amended frame) -/

theorem sized_frame :
    ∀ (p : GlobalPortfolio) (sym : String) (ts price : ℚ) (sig : Signal)
      (ext imb : ℚ) (side : String) (r : ℚ),
      (GlobalPortfolio.openPositionSized p sym ts price sig ext imb side r).2 = none →
      (GlobalPortfolio.openPositionSized p sym ts price sig ext imb side r).1 = p := by
  intro p sym ts price sig ext imb side r
  simp only [GlobalPortfolio.openPositionSized]
  repeat' split
  all_goals intro h
  all_goals first
    | rfl
    | simp at h

/-- C4 (amended): every open attempt that is rejected leaves balance, equity,
the open positions, the trade history, the cooldown timestamps and the fee
rates exactly as before; only the day counters (via the day rollover) and the
instrument's hourly-rate list (stale entries pruned) may change. -/
theorem C4_rejected_open_frame :
    ∀ (p : GlobalPortfolio) (sym : String) (ts price : ℚ) (sig : Signal)
      (ext imb : ℚ) (side : String),
      (p.openPosition sym ts price sig ext imb side).2 = none →
      (p.openPosition sym ts price sig ext imb side).1.balance = p.balance ∧
      (p.openPosition sym ts price sig ext imb side).1.equity = p.equity ∧
      (p.openPosition sym ts price sig ext imb side).1.positions = p.positions ∧
      (p.openPosition sym ts price sig ext imb side).1.trade_history
        = p.trade_history ∧
      (p.openPosition sym ts price sig ext imb side).1.last_exit_ts
        = p.last_exit_ts ∧
      (p.openPosition sym ts price sig ext imb side).1.fee_maker = p.fee_maker ∧
      (p.openPosition sym ts price sig ext imb side).1.fee_taker = p.fee_taker := by
  intro p sym ts price sig ext imb side
  simp only [GlobalPortfolio.openPosition]
  repeat' split
  all_goals intro h
  all_goals first
    | exact ⟨rfl, rfl, rfl, rfl, rfl, rfl, rfl⟩
    | (simp only [canOpen_state]
       exact ⟨(reset_preserves _ _).1, (reset_preserves _ _).2.1,
         (reset_preserves _ _).2.2.1, (reset_preserves _ _).2.2.2.1,
         (reset_preserves _ _).2.2.2.2.1, (reset_preserves _ _).2.2.2.2.2.2.1,
         (reset_preserves _ _).2.2.2.2.2.2.2⟩)
    | (rw [sized_frame _ _ _ _ _ _ _ _ _ h]
       simp only [canOpen_state]
       exact ⟨(reset_preserves _ _).1, (reset_preserves _ _).2.1,
         (reset_preserves _ _).2.2.1, (reset_preserves _ _).2.2.2.1,
         (reset_preserves _ _).2.2.2.2.1, (reset_preserves _ _).2.2.2.2.2.2.1,
         (reset_preserves _ _).2.2.2.2.2.2.2⟩)
    | simp at h

/-! ## C1 — equity recomputation sees only the ticked instrument -/

theorem recomputeEquity_balance (p : GlobalPortfolio) (prices : List (String × ℚ)) :
    (p.recomputeEquity prices).balance = p.balance := rfl

theorem recomputeEquity_positions (p : GlobalPortfolio) (prices : List (String × ℚ)) :
    (p.recomputeEquity prices).positions = p.positions := rfl

theorem recomputeEquity_fee_taker (p : GlobalPortfolio) (prices : List (String × ℚ)) :
    (p.recomputeEquity prices).fee_taker = p.fee_taker := rfl

theorem recompute_singleton_equity (q : GlobalPortfolio) (sym : String) (price : ℚ) :
    (q.recomputeEquity [(sym, price)]).equity
      = q.balance + (q.positions.map (tickedContribution sym price q.fee_taker)).sum := by
  simp only [GlobalPortfolio.recomputeEquity]
  congr 1
  congr 1
  apply List.map_congr_left
  intro kv _
  simp only [dlookup, tickedContribution]
  by_cases h : sym = kv.1
  · subst h
    simp
  · rw [if_neg h, if_neg (fun hh => h hh.symm)]

/-- C1 (amended): after every `on_price_tick`, equity equals balance plus the
sum over the open-position entries of the per-position contribution in which
ONLY the entry of the instrument that ticked contributes (unrealized PnL
minus the estimated exit taker fee at the tick price); entries of all other
instruments contribute zero. -/
theorem C1_equity_only_ticked_instrument :
    ∀ (p : GlobalPortfolio) (sym : String) (ts price : ℚ) (vol imb vn : Option ℚ),
      (p.onPriceTick sym ts price vol imb vn).1.equity
        = (p.onPriceTick sym ts price vol imb vn).1.balance
          + ((p.onPriceTick sym ts price vol imb vn).1.positions.map
              (tickedContribution sym price
                (p.onPriceTick sym ts price vol imb vn).1.fee_taker)).sum := by
  intro p sym ts price vol imb vn
  have hq : (p.onPriceTick sym ts price vol imb vn).1
      = (GlobalPortfolio.onPriceTickCore (p.resetIfNewDay ts) sym ts price
          imb vn).1.recomputeEquity [(sym, price)] := rfl
  rw [hq, recompute_singleton_equity, recomputeEquity_balance,
    recomputeEquity_positions, recomputeEquity_fee_taker]

/-! ## C3 — what the trade-frequency records actually count -/

theorem sized_success :
    ∀ (p : GlobalPortfolio) (sym : String) (ts price : ℚ) (sig : Signal)
      (ext imb : ℚ) (side : String) (r : ℚ) (pos : Position),
      (GlobalPortfolio.openPositionSized p sym ts price sig ext imb side r).2
        = some pos →
      (GlobalPortfolio.openPositionSized p sym ts price sig ext imb side r).1.trades_today
          = p.trades_today ∧
      (GlobalPortfolio.openPositionSized p sym ts price sig ext imb side r).1.trades_last_hour
          = p.trades_last_hour ∧
      (GlobalPortfolio.openPositionSized p sym ts price sig ext imb side r).1.last_exit_ts
          = p.last_exit_ts := by
  intro p sym ts price sig ext imb side r pos
  simp only [GlobalPortfolio.openPositionSized]
  repeat' split
  all_goals intro h
  all_goals first
    | exact ⟨rfl, rfl, rfl⟩
    | simp at h

/-- C3 (amended): the frequency records count CLOSES, not opens.  A
successful open leaves trades-today at its post-day-reset value and leaves
the instrument's hourly list as the pruned list, with no timestamp appended;
each partial close and each full close increments trades-today by one; a
full close appends the close timestamp to the instrument's pruned hourly
list and records the cooldown timestamp. -/
theorem C3_counters_count_closes :
    (∀ (p : GlobalPortfolio) (sym : String) (ts price : ℚ) (sig : Signal)
        (ext imb : ℚ) (side : String) (pos : Position),
      (p.openPosition sym ts price sig ext imb side).2 = some pos →
      (p.openPosition sym ts price sig ext imb side).1.trades_today
          = (p.resetIfNewDay ts).trades_today ∧
      dlookup (p.openPosition sym ts price sig ext imb side).1.trades_last_hour sym
          = some (((dlookup p.trades_last_hour sym).getD []).filter
              (fun t => ts - t < 3600))) ∧
    (∀ (p : GlobalPortfolio) (pos : Position) (ts ep : ℚ) (lbl : String),
      0 < pos.qty * PARTIAL_TP_FRACTION →
      (GlobalPortfolio.closePartialTp p pos ts ep lbl).1.trades_today
          = p.trades_today + 1 ∧
      (GlobalPortfolio.closePartialTp p pos ts ep lbl).1.trades_last_hour
          = p.trades_last_hour ∧
      (GlobalPortfolio.closePartialTp p pos ts ep lbl).1.last_exit_ts
          = p.last_exit_ts) ∧
    (∀ (p : GlobalPortfolio) (pos : Position) (ts ep : ℚ) (lbl : String),
      0 < pos.qty →
      (GlobalPortfolio.closeFull p pos ts ep lbl).1.trades_today
          = p.trades_today + 1 ∧
      (GlobalPortfolio.closeFull p pos ts ep lbl).1.last_exit_ts
          = dinsert pos.symbol ts p.last_exit_ts ∧
      dlookup (GlobalPortfolio.closeFull p pos ts ep lbl).1.trades_last_hour pos.symbol
          = some ((((dlookup p.trades_last_hour pos.symbol).getD []).filter
              (fun t => ts - t < 3600)) ++ [ts])) := by
  refine ⟨?_, ?_, ?_⟩
  · intro p sym ts price sig ext imb side pos
    simp only [GlobalPortfolio.openPosition]
    repeat' split
    all_goals intro h
    all_goals try (exact absurd h (by simp))
    all_goals
      have hs := sized_success _ _ _ _ _ _ _ _ _ _ h
      refine ⟨?_, ?_⟩
      · rw [hs.1, canOpen_state, reset_trades_today_hourly]
      · rw [hs.2.1, canOpen_state, (reset_preserves _ _).2.2.2.2.2.1]
        exact dlookup_dinsert_self _ _ _
  · intro p pos ts ep lbl h
    simp only [GlobalPortfolio.closePartialTp]
    rw [if_neg (not_le.mpr h)]
    exact ⟨rfl, rfl, rfl⟩
  · intro p pos ts ep lbl h
    simp only [GlobalPortfolio.closeFull]
    rw [if_neg (not_le.mpr h)]
    exact ⟨rfl, rfl, dlookup_dinsert_self _ _ _⟩

/-- C3 counterexample: a concrete successful open that leaves trades-today at
0 and appends nothing to the instrument's hourly list (the claim would
require 1, and the open timestamp 10 in the list). -/
theorem C3_open_increments_nothing :
    (initPortfolio.openPosition "ethusdt" 10 100 sigE (996/10) 0 "LONG").2.isSome
        = true ∧
    scnP1.trades_today = 0 ∧
    dlookup scnP1.trades_last_hour "ethusdt" = some [] := by
  norm_num [scnP1, GlobalPortfolio.openPosition, GlobalPortfolio.openPositionSized,
    GlobalPortfolio.canOpenTrade, GlobalPortfolio.resetIfNewDay,
    GlobalPortfolio.calcQtyFromRisk, GlobalPortfolio.dailyDrawdownPct,
    GlobalPortfolio.dailyDrawdownAbs, GlobalPortfolio.totalRiskPctOpen,
    GlobalPortfolio.maxNewRiskPctAllowed, tm_yday, ydayAux, isLeap,
    initPortfolio, sigE, dlookup, dinsert, option_none_eq_some_false,
    Option.some.injEq, abs_of_nonneg, abs_of_nonpos,
    INITIAL_BALANCE, LEVERAGE, BASE_RISK_PER_TRADE, MAX_TOTAL_RISK_PCT_OPEN,
    DAILY_MAX_LOSS_PCT, DAILY_MAX_LOSS_ABS, MAX_TRADES_PER_DAY,
    MAX_TRADES_PER_HOUR_PER_SYMBOL, COOLDOWN_AFTER_TRADE_SEC, MIN_RR_VS_FEES,
    REWARD_RISK_BASE, SL_BUFFER_PCT, FEE_MAKER, FEE_TAKER]

/-- C4 counterexample: a concrete open attempt rejected by the stop-distance
validation, after which the instrument's hourly-rate list has changed (its
stale entry was pruned and written back before the rejection). -/
theorem C4_rejection_mutates_hourly :
    (rejP.openPosition "btcusdt" 4000 100 sigB (125000/1249) 0 "LONG").2 = none ∧
    (rejP.openPosition "btcusdt" 4000 100 sigB (125000/1249) 0 "LONG").1.trades_last_hour
      ≠ rejP.trades_last_hour := by
  norm_num [rejP, GlobalPortfolio.openPosition, GlobalPortfolio.openPositionSized,
    GlobalPortfolio.canOpenTrade, GlobalPortfolio.resetIfNewDay,
    GlobalPortfolio.calcQtyFromRisk, GlobalPortfolio.dailyDrawdownPct,
    GlobalPortfolio.dailyDrawdownAbs, GlobalPortfolio.totalRiskPctOpen,
    GlobalPortfolio.maxNewRiskPctAllowed, tm_yday, ydayAux, isLeap,
    initPortfolio, sigB, dlookup, dinsert, option_none_eq_some_false,
    Option.some.injEq, abs_of_nonneg, abs_of_nonpos,
    INITIAL_BALANCE, LEVERAGE, BASE_RISK_PER_TRADE, MAX_TOTAL_RISK_PCT_OPEN,
    DAILY_MAX_LOSS_PCT, DAILY_MAX_LOSS_ABS, MAX_TRADES_PER_DAY,
    MAX_TRADES_PER_HOUR_PER_SYMBOL, COOLDOWN_AFTER_TRADE_SEC, MIN_RR_VS_FEES,
    REWARD_RISK_BASE, SL_BUFFER_PCT, FEE_MAKER, FEE_TAKER]

/-- C4 witness: a concrete rejected open (instrument already has a position)
leaving every core field unchanged. -/
theorem C4_rejected_open_frame_witness :
    (rejExisting.openPosition "btcusdt" 20 100 sigB (996/10) 0 "LONG").1.balance
        = rejExisting.balance ∧
    (rejExisting.openPosition "btcusdt" 20 100 sigB (996/10) 0 "LONG").1.equity
        = rejExisting.equity ∧
    (rejExisting.openPosition "btcusdt" 20 100 sigB (996/10) 0 "LONG").1.positions
        = rejExisting.positions ∧
    (rejExisting.openPosition "btcusdt" 20 100 sigB (996/10) 0 "LONG").1.trade_history
        = rejExisting.trade_history ∧
    (rejExisting.openPosition "btcusdt" 20 100 sigB (996/10) 0 "LONG").1.last_exit_ts
        = rejExisting.last_exit_ts ∧
    (rejExisting.openPosition "btcusdt" 20 100 sigB (996/10) 0 "LONG").1.fee_maker
        = rejExisting.fee_maker ∧
    (rejExisting.openPosition "btcusdt" 20 100 sigB (996/10) 0 "LONG").1.fee_taker
        = rejExisting.fee_taker :=
  C4_rejected_open_frame rejExisting "btcusdt" 20 100 sigB (996/10) 0 "LONG" rfl

/-! ## C1 and C2 counterexamples (concrete reachable states) -/

/-- C2 counterexample: a successful open whose quantity is sized from the
BALANCE, while the portfolio's mark-to-market equity (one other position open
with unrealized PnL) differs — so the claimed `(equity × risk)/|entry − stop|`
is not the quantity the code produces. -/
theorem C2_qty_not_from_equity :
    ((scnQ2.openPosition "btcusdt" 14 50 sigB (498/10) 0 "LONG").2.map
        (fun pos => pos.qty))
      = some (scnQ2.balance * (3/100) / |(50 : ℚ) - 498/10 * (1 - SL_BUFFER_PCT)|) ∧
    scnQ2.balance * (3/100) / |(50 : ℚ) - 498/10 * (1 - SL_BUFFER_PCT)|
      ≠ equityMarkToMarket scnQ2 [("ethusdt", 501/5)] * (3/100)
          / |(50 : ℚ) - 498/10 * (1 - SL_BUFFER_PCT)| := by
  norm_num [scnQ2, scnP1, equityMarkToMarket,
    GlobalPortfolio.openPosition, GlobalPortfolio.openPositionSized,
    GlobalPortfolio.canOpenTrade, GlobalPortfolio.resetIfNewDay,
    GlobalPortfolio.calcQtyFromRisk, GlobalPortfolio.dailyDrawdownPct,
    GlobalPortfolio.dailyDrawdownAbs, GlobalPortfolio.totalRiskPctOpen,
    GlobalPortfolio.maxNewRiskPctAllowed,
    GlobalPortfolio.onPriceTick, GlobalPortfolio.onPriceTickCore,
    GlobalPortfolio.updateTradeManagement, GlobalPortfolio.updateAdverseTicks,
    GlobalPortfolio.tickPartialStep, GlobalPortfolio.closePartialTp,
    GlobalPortfolio.slTpExit, GlobalPortfolio.tickExitDecision,
    GlobalPortfolio.checkInvalidImbClose, GlobalPortfolio.checkNoProgress,
    GlobalPortfolio.getTimeStopLimit, GlobalPortfolio.closeFull,
    GlobalPortfolio.recomputeEquity,
    tm_yday, ydayAux, isLeap, initPortfolio, sigE, sigB, dlookup, dinsert, derase,
    option_none_eq_some_false, Option.some.injEq, abs_of_nonneg, abs_of_nonpos,
    str_eq_false₁, str_eq_false₂, str_eq_false₃, str_eq_false₄,
    max_def, min_def, TICK_SIZE,
    INITIAL_BALANCE, LEVERAGE, BASE_RISK_PER_TRADE, MAX_TOTAL_RISK_PCT_OPEN,
    DAILY_MAX_LOSS_PCT, DAILY_MAX_LOSS_ABS, MAX_TRADES_PER_DAY,
    MAX_TRADES_PER_HOUR_PER_SYMBOL, COOLDOWN_AFTER_TRADE_SEC, MIN_RR_VS_FEES,
    REWARD_RISK_BASE, SL_BUFFER_PCT, FEE_MAKER, FEE_TAKER,
    BREAKEVEN_TRIGGER_PCT, TRAILING_STOP_PCT, PARTIAL_TP_FRACTION,
    PARTIAL_TP_TRIGGER_PCT, INVALID_IMB_ENABLE, INVALID_IMB_MIN_AGE_SEC,
    NO_PROGRESS_EXIT_ENABLE, MAX_TRADE_LIFETIME_LOW_VOL_SEC,
    MAX_TRADE_LIFETIME_HIGH_VOL_SEC, VOL_NORM_HIGH_THRESHOLD]

/-- C1 counterexample: after an ethusdt tick with both an ethusdt and a
btcusdt position open, the portfolio's equity ignores the btcusdt position
(it contributes zero instead of its unrealized PnL minus exit fee at its
latest known price 50), so equity differs from the claimed sum over ALL open
positions. -/
theorem C1_equity_skips_other_positions :
    (dlookup scnP4.positions "btcusdt").isSome = true ∧
    (dlookup scnP4.positions "ethusdt").isSome = true ∧
    scnP4.equity
      ≠ equityAllOpenPositions scnP4 [("btcusdt", 50), ("ethusdt", 501/5)] := by
  norm_num [scnP4, scnP3, scnP2, scnP1, equityAllOpenPositions,
    GlobalPortfolio.openPosition, GlobalPortfolio.openPositionSized,
    GlobalPortfolio.canOpenTrade, GlobalPortfolio.resetIfNewDay,
    GlobalPortfolio.calcQtyFromRisk, GlobalPortfolio.dailyDrawdownPct,
    GlobalPortfolio.dailyDrawdownAbs, GlobalPortfolio.totalRiskPctOpen,
    GlobalPortfolio.maxNewRiskPctAllowed,
    GlobalPortfolio.onPriceTick, GlobalPortfolio.onPriceTickCore,
    GlobalPortfolio.updateTradeManagement, GlobalPortfolio.updateAdverseTicks,
    GlobalPortfolio.tickPartialStep, GlobalPortfolio.closePartialTp,
    GlobalPortfolio.slTpExit, GlobalPortfolio.tickExitDecision,
    GlobalPortfolio.checkInvalidImbClose, GlobalPortfolio.checkNoProgress,
    GlobalPortfolio.getTimeStopLimit, GlobalPortfolio.closeFull,
    GlobalPortfolio.recomputeEquity,
    tm_yday, ydayAux, isLeap, initPortfolio, sigE, sigB, dlookup, dinsert, derase,
    option_none_eq_some_false, Option.some.injEq, abs_of_nonneg, abs_of_nonpos,
    str_eq_false₁, str_eq_false₂, str_eq_false₃, str_eq_false₄,
    max_def, min_def, TICK_SIZE,
    INITIAL_BALANCE, LEVERAGE, BASE_RISK_PER_TRADE, MAX_TOTAL_RISK_PCT_OPEN,
    DAILY_MAX_LOSS_PCT, DAILY_MAX_LOSS_ABS, MAX_TRADES_PER_DAY,
    MAX_TRADES_PER_HOUR_PER_SYMBOL, COOLDOWN_AFTER_TRADE_SEC, MIN_RR_VS_FEES,
    REWARD_RISK_BASE, SL_BUFFER_PCT, FEE_MAKER, FEE_TAKER,
    BREAKEVEN_TRIGGER_PCT, TRAILING_STOP_PCT, PARTIAL_TP_FRACTION,
    PARTIAL_TP_TRIGGER_PCT, INVALID_IMB_ENABLE, INVALID_IMB_MIN_AGE_SEC,
    NO_PROGRESS_EXIT_ENABLE, MAX_TRADE_LIFETIME_LOW_VOL_SEC,
    MAX_TRADE_LIFETIME_HIGH_VOL_SEC, VOL_NORM_HIGH_THRESHOLD]

/-! ## C6 — partial-once, full-close exactness, quantity conservation -/

theorem adv_preserves (pos : Position) (price : ℚ) :
    (GlobalPortfolio.updateAdverseTicks pos price).qty = pos.qty ∧
    (GlobalPortfolio.updateAdverseTicks pos price).initial_qty = pos.initial_qty ∧
    (GlobalPortfolio.updateAdverseTicks pos price).partial_taken = pos.partial_taken ∧
    (GlobalPortfolio.updateAdverseTicks pos price).open_reason = pos.open_reason ∧
    (GlobalPortfolio.updateAdverseTicks pos price).symbol = pos.symbol := by
  simp only [GlobalPortfolio.updateAdverseTicks]
  split_ifs <;> simp

theorem invimb_preserves (pos : Position) (imb : Option ℚ) (ts : ℚ) :
    ((GlobalPortfolio.checkInvalidImbClose pos imb ts).1.qty = pos.qty) ∧
    ((GlobalPortfolio.checkInvalidImbClose pos imb ts).1.initial_qty = pos.initial_qty) ∧
    ((GlobalPortfolio.checkInvalidImbClose pos imb ts).1.partial_taken = pos.partial_taken) ∧
    ((GlobalPortfolio.checkInvalidImbClose pos imb ts).1.open_reason = pos.open_reason) ∧
    ((GlobalPortfolio.checkInvalidImbClose pos imb ts).1.symbol = pos.symbol) := by
  rcases imb with _ | v
  · simp [GlobalPortfolio.checkInvalidImbClose]
  · simp only [GlobalPortfolio.checkInvalidImbClose]
    split_ifs <;> simp

theorem invimb_reason (pos : Position) (imb : Option ℚ) (ts : ℚ) (s : String)
    (h : (GlobalPortfolio.checkInvalidImbClose pos imb ts).2 = some s) :
    s = "INVALID_IMB" := by
  rcases imb with _ | v <;>
    simp only [GlobalPortfolio.checkInvalidImbClose] at h <;>
    [skip; split_ifs at h] <;> simp_all

theorem slTpExit_label (pos : Position) (price : ℚ) (ep : ℚ) (lbl : String)
    (h : GlobalPortfolio.slTpExit pos price = some (ep, lbl)) :
    lbl = "SL" ∨ lbl = "TP" := by
  simp only [GlobalPortfolio.slTpExit] at h
  split_ifs at h <;> simp_all

theorem exitdec_preserves (pos : Position) (ts price : ℚ) (imb vn : Option ℚ) :
    ((GlobalPortfolio.tickExitDecision pos ts price imb vn).1.qty = pos.qty) ∧
    ((GlobalPortfolio.tickExitDecision pos ts price imb vn).1.initial_qty
        = pos.initial_qty) ∧
    ((GlobalPortfolio.tickExitDecision pos ts price imb vn).1.partial_taken
        = pos.partial_taken) ∧
    ((GlobalPortfolio.tickExitDecision pos ts price imb vn).1.open_reason
        = pos.open_reason) ∧
    ((GlobalPortfolio.tickExitDecision pos ts price imb vn).1.symbol = pos.symbol) := by
  simp only [GlobalPortfolio.tickExitDecision]
  split
  · simp
  · split
    · exact invimb_preserves pos imb ts
    · split_ifs <;> exact invimb_preserves pos imb ts

theorem exitdec_label (pos : Position) (ts price : ℚ) (imb vn : Option ℚ)
    (ep : ℚ) (lbl : String)
    (h : (GlobalPortfolio.tickExitDecision pos ts price imb vn).2 = some (ep, lbl)) :
    lbl.length ≠ 8 := by
  simp only [GlobalPortfolio.tickExitDecision] at h
  split at h
  · rename_i e heq
    have h2 : e = (ep, lbl) := by simp_all
    rcases slTpExit_label pos price ep lbl (by rw [heq, h2]) with hl | hl <;>
      rw [hl] <;> decide
  · split at h
    · rename_i s heq
      have h2 : s = "INVALID_IMB" :=
        invimb_reason _ _ _ _ (by rw [heq])
      have h3 : lbl = s := by simp_all
      rw [h3, h2]
      decide
    · split_ifs at h <;> simp_all <;> rw [← h.2] <;> decide

theorem reason_label_not_fast (lbl o : String) (hl : lbl.length ≠ 8) :
    (lbl ++ " | " ++ o = "TP1_FAST | " ++ o) = False := by
  simp only [eq_iff_iff, iff_false]
  intro h
  have hlen := congrArg String.length h
  rw [String.length_append, String.length_append, String.length_append] at hlen
  have h1 : (" | " : String).length = 3 := rfl
  have h2 : ("TP1_FAST | " : String).length = 11 := rfl
  rw [h1, h2] at hlen
  omega

theorem countPartial_append (o : String) (a b : List TradeRecord) :
    countPartialRecs o (a ++ b) = countPartialRecs o a + countPartialRecs o b :=
  List.countP_append _ a b

theorem sumQty_append (a b : List TradeRecord) :
    sumQty (a ++ b) = sumQty a + sumQty b := by
  simp [sumQty, List.sum_append]

theorem closePartial_noop (p : GlobalPortfolio) (pos : Position) (ts ep : ℚ)
    (lbl : String) (h : pos.qty * PARTIAL_TP_FRACTION ≤ 0) :
    GlobalPortfolio.closePartialTp p pos ts ep lbl = (p, pos, []) := by
  simp only [GlobalPortfolio.closePartialTp]
  rw [if_pos h]

theorem closePartial_spec (p : GlobalPortfolio) (pos : Position) (ts ep : ℚ)
    (lbl : String) (h : 0 < pos.qty * PARTIAL_TP_FRACTION) :
    (GlobalPortfolio.closePartialTp p pos ts ep lbl).1.positions = p.positions ∧
    (GlobalPortfolio.closePartialTp p pos ts ep lbl).2.1.qty
        = pos.qty - pos.qty * PARTIAL_TP_FRACTION ∧
    (GlobalPortfolio.closePartialTp p pos ts ep lbl).2.1.initial_qty
        = pos.initial_qty ∧
    (GlobalPortfolio.closePartialTp p pos ts ep lbl).2.1.partial_taken = true ∧
    (GlobalPortfolio.closePartialTp p pos ts ep lbl).2.1.open_reason
        = pos.open_reason ∧
    (GlobalPortfolio.closePartialTp p pos ts ep lbl).2.1.symbol = pos.symbol ∧
    ∃ tr, (GlobalPortfolio.closePartialTp p pos ts ep lbl).2.2 = [tr] ∧
      tr.qty = pos.qty * PARTIAL_TP_FRACTION ∧
      tr.reason = lbl ++ " | " ++ pos.open_reason := by
  simp only [GlobalPortfolio.closePartialTp]
  rw [if_neg (not_le.mpr h)]
  exact ⟨rfl, rfl, rfl, rfl, rfl, rfl, _, rfl, rfl, rfl⟩

theorem closeFull_noop (p : GlobalPortfolio) (pos : Position) (ts ep : ℚ)
    (lbl : String) (h : pos.qty ≤ 0) :
    GlobalPortfolio.closeFull p pos ts ep lbl = (p, []) := by
  simp only [GlobalPortfolio.closeFull]
  rw [if_pos h]

theorem closeFull_spec (p : GlobalPortfolio) (pos : Position) (ts ep : ℚ)
    (lbl : String) (h : 0 < pos.qty) :
    (GlobalPortfolio.closeFull p pos ts ep lbl).1.positions
        = derase pos.symbol p.positions ∧
    ∃ tr, (GlobalPortfolio.closeFull p pos ts ep lbl).2 = [tr] ∧
      tr.qty = pos.qty ∧
      tr.reason = lbl ++ " | " ++ pos.open_reason := by
  simp only [GlobalPortfolio.closeFull]
  rw [if_neg (not_le.mpr h)]
  exact ⟨rfl, _, rfl, rfl, rfl⟩

theorem countPartial_nil (o : String) : countPartialRecs o [] = 0 := rfl

theorem sumQty_nil : sumQty [] = 0 := rfl

theorem sumQty_singleton (tr : TradeRecord) : sumQty [tr] = tr.qty := by
  simp [sumQty]

theorem append_fast (o : String) :
    ("TP1_FAST" ++ " | " ++ o : String) = "TP1_FAST | " ++ o := by
  have h : ("TP1_FAST" ++ " | " : String) = "TP1_FAST | " := by decide
  rw [h]

theorem countPartial_single_fast (o : String) (tr : TradeRecord)
    (h : tr.reason = "TP1_FAST" ++ " | " ++ o) : countPartialRecs o [tr] = 1 := by
  have e : tr.reason = "TP1_FAST | " ++ o := h.trans (append_fast o)
  simp [countPartialRecs, List.countP_cons, List.countP_nil, e]

theorem countPartial_single_other (o lbl : String) (tr : TradeRecord)
    (h : tr.reason = lbl ++ " | " ++ o) (hl : lbl.length ≠ 8) :
    countPartialRecs o [tr] = 0 := by
  simp only [countPartialRecs, List.countP_cons, List.countP_nil, h]
  simp [reason_label_not_fast lbl o hl]


theorem tickPartial_cases (p : GlobalPortfolio) (pos : Position) (ts price : ℚ) :
    GlobalPortfolio.tickPartialStep p pos ts price = (p, pos, []) ∨
    (pos.partial_taken = false ∧
      ∃ ep, GlobalPortfolio.tickPartialStep p pos ts price
        = GlobalPortfolio.closePartialTp p pos ts ep "TP1_FAST") := by
  simp only [GlobalPortfolio.tickPartialStep]
  split_ifs with h1 h2 h3
  · exact Or.inr ⟨h1, _, rfl⟩
  · exact Or.inr ⟨h1, _, rfl⟩
  · exact Or.inl rfl
  · exact Or.inl rfl

theorem tickPartial_spec (p : GlobalPortfolio) (pos : Position) (ts price : ℚ) :
    ∃ ps pos₂ recs₁,
      GlobalPortfolio.tickPartialStep p pos ts price = (ps, pos₂, recs₁) ∧
      ps.positions = p.positions ∧
      pos₂.initial_qty = pos.initial_qty ∧
      pos₂.open_reason = pos.open_reason ∧
      pos₂.symbol = pos.symbol ∧
      (pos.partial_taken = true → pos₂.partial_taken = true) ∧
      sumQty recs₁ + pos₂.qty = pos.qty ∧
      countPartialRecs pos.open_reason recs₁
        = (if pos.partial_taken = false ∧ pos₂.partial_taken = true then 1
           else 0) := by
  rcases tickPartial_cases p pos ts price with h | ⟨ht, ep, h⟩
  · refine ⟨p, pos, [], h, rfl, rfl, rfl, rfl, fun hh => hh, by simp [sumQty_nil], ?_⟩
    rw [countPartial_nil]
    cases hb : pos.partial_taken <;> simp [hb]
  · by_cases hq : pos.qty * PARTIAL_TP_FRACTION ≤ 0
    · rw [closePartial_noop p pos ts ep "TP1_FAST" hq] at h
      refine ⟨p, pos, [], h, rfl, rfl, rfl, rfl, fun hh => hh, by simp [sumQty_nil], ?_⟩
      rw [countPartial_nil]
      cases hb : pos.partial_taken <;> simp [hb]
    · have hq' : 0 < pos.qty * PARTIAL_TP_FRACTION := lt_of_not_le hq
      obtain ⟨h1, h2, h3, h4, h5, h6, tr, h7, h8, h9⟩ :=
        closePartial_spec p pos ts ep "TP1_FAST" hq'
      refine ⟨(GlobalPortfolio.closePartialTp p pos ts ep "TP1_FAST").1,
        (GlobalPortfolio.closePartialTp p pos ts ep "TP1_FAST").2.1,
        (GlobalPortfolio.closePartialTp p pos ts ep "TP1_FAST").2.2,
        by rw [h], h1, h3, h5, ?_, fun hh => by rw [h4], ?_, ?_⟩
      · rw [h6]
      · rw [h7, sumQty_singleton, h8, h2]
        ring
      · rw [h7, countPartial_single_fast pos.open_reason tr h9, ht, h4]
        simp

theorem core_step (p : GlobalPortfolio) (sym : String) (ts price : ℚ)
    (imb vn : Option ℚ) (pos : Position)
    (hN : keysNodup p.positions)
    (hL : dlookup p.positions sym = some pos)
    (hS : pos.symbol = sym) :
    keysNodup (GlobalPortfolio.onPriceTickCore p sym ts price imb vn).1.positions ∧
    ((∃ pos', dlookup (GlobalPortfolio.onPriceTickCore p sym ts price imb vn).1.positions
          sym = some pos' ∧
        pos'.symbol = sym ∧
        pos'.open_reason = pos.open_reason ∧
        pos'.initial_qty = pos.initial_qty ∧
        sumQty (GlobalPortfolio.onPriceTickCore p sym ts price imb vn).2 + pos'.qty
          = pos.qty ∧
        countPartialRecs pos.open_reason
            (GlobalPortfolio.onPriceTickCore p sym ts price imb vn).2
          = (if pos.partial_taken = false ∧ pos'.partial_taken = true then 1 else 0) ∧
        (pos.partial_taken = true → pos'.partial_taken = true))
      ∨ (dlookup (GlobalPortfolio.onPriceTickCore p sym ts price imb vn).1.positions
            sym = none ∧
        sumQty (GlobalPortfolio.onPriceTickCore p sym ts price imb vn).2 = pos.qty ∧
        countPartialRecs pos.open_reason
            (GlobalPortfolio.onPriceTickCore p sym ts price imb vn).2
          ≤ (if pos.partial_taken = true then 0 else 1))) := by
  simp only [GlobalPortfolio.onPriceTickCore, hL]
  have hm := mgmt_preserves pos price
  have ha := adv_preserves (GlobalPortfolio.updateTradeManagement pos price) price
  set pos₁ := GlobalPortfolio.updateAdverseTicks
    (GlobalPortfolio.updateTradeManagement pos price) price with hpos₁
  have h1q : pos₁.qty = pos.qty := by rw [hpos₁, ha.1, hm.2.1]
  have h1i : pos₁.initial_qty = pos.initial_qty := by rw [hpos₁, ha.2.1, hm.2.2.1]
  have h1p : pos₁.partial_taken = pos.partial_taken := by
    rw [hpos₁, ha.2.2.1, hm.2.2.2.1]
  have h1o : pos₁.open_reason = pos.open_reason := by
    rw [hpos₁, ha.2.2.2.1, hm.2.2.2.2.1]
  have h1s : pos₁.symbol = sym := by
    rw [hpos₁, ha.2.2.2.2, hm.2.2.2.2.2.1, hS]
  obtain ⟨ps, pos₂, recs₁, hs, hps, h2i, h2o, h2s, h2mono, h2sum, h2cnt⟩ :=
    tickPartial_spec { p with positions := dinsert sym pos₁ p.positions } pos₁ ts price
  rw [hs]
  have h2s' : pos₂.symbol = sym := by rw [h2s, h1s]
  have he := exitdec_preserves pos₂ ts price imb vn
  set pos₃ := (GlobalPortfolio.tickExitDecision pos₂ ts price imb vn).1 with hpos₃
  have h3q : pos₃.qty = pos₂.qty := he.1
  have h3i : pos₃.initial_qty = pos₂.initial_qty := he.2.1
  have h3p : pos₃.partial_taken = pos₂.partial_taken := he.2.2.1
  have h3o : pos₃.open_reason = pos₂.open_reason := he.2.2.2.1
  have h3s : pos₃.symbol = sym := by rw [he.2.2.2.2, h2s']
  have hN₂ : keysNodup (dinsert sym pos₃
      (dinsert sym pos₂ ps.positions)) := by
    apply keysNodup_dinsert
    apply keysNodup_dinsert
    rw [hps]
    exact keysNodup_dinsert sym pos₁ p.positions hN
  have hcnt_all : countPartialRecs pos.open_reason recs₁
      = (if pos.partial_taken = false ∧ pos₂.partial_taken = true then 1 else 0) := by
    rw [← h1o, ← h1p]
    exact h2cnt
  have hsum_all : sumQty recs₁ + pos₂.qty = pos.qty := by
    rw [← h1q]
    exact h2sum
  rcases hopt : (GlobalPortfolio.tickExitDecision pos₂ ts price imb vn).2
    with _ | ⟨ep₂, lbl⟩
  · simp only [hopt]
    refine ⟨hN₂, Or.inl ⟨pos₃, dlookup_dinsert_self _ _ _, h3s, ?_, ?_, ?_, ?_, ?_⟩⟩
    · rw [h3o, h2o, h1o]
    · rw [h3i, h2i, h1i]
    · rw [h3q]; exact hsum_all
    · rw [hcnt_all, h3p]
    · intro hh
      rw [h3p]
      exact h2mono (by rw [h1p]; exact hh)
  · simp only [hopt]
    by_cases hq3 : 0 < pos₃.qty
    · rw [if_pos hq3]
      obtain ⟨hcp, tr, htr, htrq, htrr⟩ := closeFull_spec _ pos₃ ts ep₂ lbl hq3
      refine ⟨?_, Or.inr ⟨?_, ?_, ?_⟩⟩
      · rw [hcp]
        exact keysNodup_derase _ _ hN₂
      · rw [hcp, h3s]
        exact dlookup_derase_self sym _ hN₂
      · rw [htr, sumQty_append, sumQty_singleton, htrq, h3q]
        exact hsum_all
      · rw [htr, countPartial_append,
          countPartial_single_other pos.open_reason lbl tr
            (by rw [htrr, h3o, h2o, h1o])
            (exitdec_label pos₂ ts price imb vn ep₂ lbl hopt),
          hcnt_all]
        cases hb : pos.partial_taken <;>
          cases hb2 : pos₂.partial_taken <;> simp [hb, hb2]
    · rw [if_neg hq3]
      refine ⟨hN₂, Or.inl ⟨pos₃, dlookup_dinsert_self _ _ _, h3s, ?_, ?_, ?_, ?_, ?_⟩⟩
      · rw [h3o, h2o, h1o]
      · rw [h3i, h2i, h1i]
      · rw [h3q]; exact hsum_all
      · rw [hcnt_all, h3p]
      · intro hh
        rw [h3p]
        exact h2mono (by rw [h1p]; exact hh)

theorem runTicks_dead (sym : String) :
    ∀ (ticks : List Tick) (p : GlobalPortfolio),
      dlookup p.positions sym = none →
      (runTicks p sym ticks).2 = [] ∧
      (runTicks p sym ticks).1.positions = p.positions := by
  intro ticks
  induction ticks with
  | nil => intro p _; exact ⟨rfl, rfl⟩
  | cons t rest ih =>
    intro p h
    simp only [runTicks]
    have hr : dlookup (p.resetIfNewDay t.ts).positions sym = none := by
      rw [(reset_preserves p t.ts).2.2.1]
      exact h
    have e2 : (p.onPriceTick sym t.ts t.price t.vol t.imbalance t.vol_norm).2 = [] := by
      show (GlobalPortfolio.onPriceTickCore (p.resetIfNewDay t.ts) sym t.ts t.price
        t.imbalance t.vol_norm).2 = []
      simp only [GlobalPortfolio.onPriceTickCore, hr]
    have e1 : (p.onPriceTick sym t.ts t.price t.vol t.imbalance t.vol_norm).1.positions
        = p.positions := by
      show (GlobalPortfolio.onPriceTickCore (p.resetIfNewDay t.ts) sym t.ts t.price
        t.imbalance t.vol_norm).1.positions = p.positions
      simp only [GlobalPortfolio.onPriceTickCore, hr]
      exact (reset_preserves p t.ts).2.2.1
    obtain ⟨ihr, ihp⟩ := ih _ (by rw [e1]; exact h)
    constructor
    · simp [e2, ihr]
    · rw [ihp, e1]

theorem runTicks_life (sym : String) :
    ∀ (ticks : List Tick) (p : GlobalPortfolio) (pos : Position),
      keysNodup p.positions →
      dlookup p.positions sym = some pos →
      pos.symbol = sym →
      keysNodup (runTicks p sym ticks).1.positions ∧
      (sumQty (runTicks p sym ticks).2
          + (match dlookup (runTicks p sym ticks).1.positions sym with
             | some q => q.qty
             | none => 0) = pos.qty) ∧
      countPartialRecs pos.open_reason (runTicks p sym ticks).2
          ≤ (if pos.partial_taken = true then 0 else 1) ∧
      (∀ q, dlookup (runTicks p sym ticks).1.positions sym = some q →
          q.symbol = sym ∧ q.open_reason = pos.open_reason ∧
          q.initial_qty = pos.initial_qty ∧
          (pos.partial_taken = true → q.partial_taken = true) ∧
          (q.partial_taken = false →
            countPartialRecs pos.open_reason (runTicks p sym ticks).2 = 0)) := by
  intro ticks
  induction ticks with
  | nil =>
    intro p pos hN hL hS
    refine ⟨hN, ?_, ?_, ?_⟩
    · simp only [runTicks, hL, sumQty_nil]
      ring
    · simp only [runTicks, countPartial_nil]
      cases pos.partial_taken <;> simp
    · intro q hq
      simp only [runTicks] at hq
      rw [hL] at hq
      cases hq
      exact ⟨hS, rfl, rfl, fun hh => hh, fun _ => rfl⟩
  | cons t rest ih =>
    intro p pos hN hL hS
    simp only [runTicks]
    have hNr : keysNodup (p.resetIfNewDay t.ts).positions := by
      rw [(reset_preserves p t.ts).2.2.1]
      exact hN
    have hLr : dlookup (p.resetIfNewDay t.ts).positions sym = some pos := by
      rw [(reset_preserves p t.ts).2.2.1]
      exact hL
    obtain ⟨hN', hsplit⟩ := core_step (p.resetIfNewDay t.ts) sym t.ts t.price
      t.imbalance t.vol_norm pos hNr hLr hS
    have e1 : (p.onPriceTick sym t.ts t.price t.vol t.imbalance t.vol_norm).1.positions
        = (GlobalPortfolio.onPriceTickCore (p.resetIfNewDay t.ts) sym t.ts t.price
            t.imbalance t.vol_norm).1.positions := rfl
    have e2 : (p.onPriceTick sym t.ts t.price t.vol t.imbalance t.vol_norm).2
        = (GlobalPortfolio.onPriceTickCore (p.resetIfNewDay t.ts) sym t.ts t.price
            t.imbalance t.vol_norm).2 := rfl
    rcases hsplit with ⟨pos', hlk, hsym', hor, hiq, hsum, hcnt, hmono⟩ |
      ⟨hlk, hsum, hcnt⟩
    · obtain ⟨ihN, ihsum, ihcnt, ihq⟩ := ih
        (p.onPriceTick sym t.ts t.price t.vol t.imbalance t.vol_norm).1 pos'
        (by rw [e1]; exact hN') (by rw [e1]; exact hlk) hsym'
      rw [hor] at ihcnt ihq
      refine ⟨ihN, ?_, ?_, ?_⟩
      · rw [sumQty_append, e2]
        linarith [hsum, ihsum]
      · rw [countPartial_append, e2]
        cases hb : pos.partial_taken with
        | true =>
          have hb' : pos'.partial_taken = true := hmono hb
          have hc1 : countPartialRecs pos.open_reason
              (GlobalPortfolio.onPriceTickCore (p.resetIfNewDay t.ts) sym t.ts
                t.price t.imbalance t.vol_norm).2 = 0 := by
            rw [hcnt, hb]
            simp
          rw [hb'] at ihcnt
          simp at ihcnt ⊢
          omega
        | false =>
          cases hb' : pos'.partial_taken with
          | true =>
            have hc1 : countPartialRecs pos.open_reason
                (GlobalPortfolio.onPriceTickCore (p.resetIfNewDay t.ts) sym t.ts
                  t.price t.imbalance t.vol_norm).2 ≤ 1 := by
              rw [hcnt]
              split_ifs <;> omega
            rw [hb'] at ihcnt
            simp at ihcnt
            simp only [Bool.false_eq_true, if_false]
            omega
          | false =>
            have hc1 : countPartialRecs pos.open_reason
                (GlobalPortfolio.onPriceTickCore (p.resetIfNewDay t.ts) sym t.ts
                  t.price t.imbalance t.vol_norm).2 = 0 := by
              rw [hcnt, hb']
              simp
            rw [hb'] at ihcnt
            simp only [Bool.false_eq_true, if_false] at ihcnt
            simp only [Bool.false_eq_true, if_false]
            omega
      · intro q hq
        obtain ⟨hq1, hq2, hq3', hq4, hq5⟩ := ihq q hq
        refine ⟨hq1, hq2, hq3'.trans hiq, ?_, ?_⟩
        · intro hh
          exact hq4 (hmono hh)
        · intro hh
          rw [countPartial_append, e2]
          have hc2 := hq5 hh
          have hc1 : countPartialRecs pos.open_reason
              (GlobalPortfolio.onPriceTickCore (p.resetIfNewDay t.ts) sym t.ts
                t.price t.imbalance t.vol_norm).2 = 0 := by
            rw [hcnt]
            have hp' : pos'.partial_taken = false := by
              cases hb' : pos'.partial_taken
              · rfl
              · exact absurd (hq4 hb') (by rw [hh]; exact Bool.false_ne_true)
            rw [hp']
            simp
          rw [hc1, hc2]
    · obtain ⟨hdr, hdp⟩ := runTicks_dead sym rest
        (p.onPriceTick sym t.ts t.price t.vol t.imbalance t.vol_norm).1
        (by rw [e1]; exact hlk)
      refine ⟨?_, ?_, ?_, ?_⟩
      · rw [hdp, e1]
        exact hN'
      · rw [sumQty_append, e2, hdr, sumQty_nil]
        have hnone : dlookup (runTicks
            (p.onPriceTick sym t.ts t.price t.vol t.imbalance t.vol_norm).1 sym
            rest).1.positions sym = none := by
          rw [hdp, e1]
          exact hlk
        rw [hnone, hsum]
        ring
      · rw [countPartial_append, e2, hdr, countPartial_nil]
        omega
      · intro q hq
        rw [hdp, e1, hlk] at hq
        cases hq

/-- C6: over a position's whole life — any sequence of price ticks on its
instrument — the fast partial take-profit fires at most once (at most one
TP1_FAST record is ever emitted); a full close closes exactly the
then-remaining quantity and removes the position; and the sum of the closed
quantities of all emitted trade records plus any quantity still open equals
the initial entry quantity (exactly, in rational arithmetic). -/
theorem C6_partial_once_and_conservation :
    (∀ (p : GlobalPortfolio) (sym : String) (pos : Position) (ticks : List Tick),
      keysNodup p.positions →
      dlookup p.positions sym = some pos →
      pos.symbol = sym →
      pos.partial_taken = false →
      pos.qty = pos.initial_qty →
      countPartialRecs pos.open_reason (runTicks p sym ticks).2 ≤ 1 ∧
      sumQty (runTicks p sym ticks).2
          + (match dlookup (runTicks p sym ticks).1.positions sym with
             | some q => q.qty
             | none => 0) = pos.initial_qty) ∧
    (∀ (p : GlobalPortfolio) (pos : Position) (ts ep : ℚ) (lbl : String),
      keysNodup p.positions →
      0 < pos.qty →
      (GlobalPortfolio.closeFull p pos ts ep lbl).2.map TradeRecord.qty
          = [pos.qty] ∧
      dlookup (GlobalPortfolio.closeFull p pos ts ep lbl).1.positions pos.symbol
          = none) := by
  constructor
  · intro p sym pos ticks hN hL hS hPT hQ
    obtain ⟨_, hsum, hcnt, _⟩ := runTicks_life sym ticks p pos hN hL hS
    constructor
    · refine le_trans hcnt ?_
      split_ifs <;> omega
    · rw [← hQ]
      exact hsum
  · intro p pos ts ep lbl hN hq
    obtain ⟨hcp, tr, htr, htrq, _⟩ := closeFull_spec p pos ts ep lbl hq
    constructor
    · rw [htr]
      simp [htrq]
    · rw [hcp]
      exact dlookup_derase_self _ _ hN

end Bot
